import Mathlib

/-!
# Verification of the ArxivSDK paper-record / query / client core

Shallow embedding of the query-builder, paper-record normalization,
PDF-URL resolution, client retry/validation and download-pipeline logic
of the ArxivSDK repository, together with proofs of the spec claims.

Conventions used throughout:

* Python `str` values are modelled as Lean `String` / `List Char`; all the
  strings manipulated by the embedded code are newline-free, so `$` in the
  Python regexes is modelled as end-of-string.
* Machine-level behaviour of CPython is embedded explicitly where it
  matters: attribute access on a pydantic model that does not declare the
  attribute raises `AttributeError`; `datetime.strptime` matches its
  format regex with backtracking and then requires the whole string to be
  consumed; `str.strip` removes ASCII whitespace.
* Fallible code returns `Except PyErr`; an uncaught Python exception is an
  `Except.error`.
-/

set_option autoImplicit false

deriving instance DecidableEq for Except

namespace ArxivSDK

/-- Python exceptions surfaced by the embedded code.  `attributeError obj
attr` models `AttributeError: '<obj>' object has no attribute '<attr>'`. -/
inductive PyErr where
  | attributeError (obj : String) (attr : String)
  | valueError (msg : String)
  | arxivAPIError (status : Nat) (body : String)
  | arxivNetworkError (msg : String)
  | arxivParseError (msg : String)
  | arxivDownloadError (msg : String)
  | requestException (msg : String)
  | httpError (status : Nat) (msg : String)
  | academicNetworkError (msg : String)
  | academicDownloadError (msg : String)
  | genericException (msg : String)
  deriving DecidableEq, Repr

/-- `academic_sdk/models.py` lines 7-11: the `Link` pydantic model declares
exactly the fields `href`, `title`, `rel`.  It does **not** declare a
`type` field; with the default pydantic config (`extra` ignored) a raw
feed entry's `type` key is dropped at validation and reading `.type` on a
`Link` instance raises `AttributeError`. -/
structure Link where
  href : String
  title : Option String := none
  rel : Option String := none
  deriving DecidableEq, Repr

/-- `academic_sdk/models.py`: an author of a paper (only `name` is
required; affiliations default to absent). -/
structure Author where
  name : String
  affiliations : Option (List String) := none
  deriving DecidableEq, Repr

/-- `arxiv_sdk/models.py`: the fields of `ArxivPaper` consulted by the
embedded operations (`pdf_url`, `download_pdf`, the search parse loop).
The remaining optional fields (timestamps, doi, journal ref, ...) are
never read by the embedded code paths and are omitted. -/
structure ArxivPaper where
  id : String
  title : String
  summary : Option String := none
  authors : List Author := []
  links : List Link := []
  primary_category : Option String := none
  categories : Option (List String) := none
  deriving DecidableEq, Repr

/-! ## urllib.parse fragments

`urlparse(href).scheme`: the text before the first `:` is the scheme when
it is non-empty, starts with an ASCII letter and consists of letters,
digits, `+`, `-`, `.`; it is lower-cased.  Otherwise the scheme is `""`. -/

/-- Characters admissible in a URL scheme (urllib's `scheme_chars`). -/
def isSchemeChar (c : Char) : Bool :=
  (('a' ≤ c && c ≤ 'z') || ('A' ≤ c && c ≤ 'Z') || ('0' ≤ c && c ≤ '9')
    || c = '+' || c = '-' || c = '.')

/-- ASCII lower-casing of one character (Python `str.lower` restricted to
the ASCII range, which is all the embedded code ever feeds it). -/
def pyLowerChar (c : Char) : Char :=
  if 'A' ≤ c && c ≤ 'Z' then Char.ofNat (c.toNat + 32) else c

/-- ASCII upper-casing of one character (Python `str.upper` on ASCII). -/
def pyUpperChar (c : Char) : Char :=
  if 'a' ≤ c && c ≤ 'z' then Char.ofNat (c.toNat - 32) else c

/-- The characters strictly before the first `:`, or `none` when the
string contains no `:`. -/
def beforeColon : List Char → Option (List Char)
  | [] => none
  | c :: cs =>
    if c = ':' then some []
    else (beforeColon cs).map (fun l => c :: l)

/-- `urlparse(u).scheme` (see module comment above). -/
def urlScheme (u : String) : String :=
  match beforeColon u.data with
  | none => ""
  | some [] => ""
  | some (c :: cs) =>
    if (('a' ≤ c && c ≤ 'z') || ('A' ≤ c && c ≤ 'Z'))
        && (c :: cs).all isSchemeChar then
      String.mk ((c :: cs).map pyLowerChar)
    else ""

/-! ## PDF URL resolution (`ArxivPaper.pdf_url`, arxiv_sdk/models.py 53-96) -/

/-- The scan over `self.links` in the `pdf_url` property.  The very first
expression of the loop body evaluates `l.type`; since the `Link` model
(academic_sdk/models.py lines 7-11) declares no `type` field, pydantic v2
raises `AttributeError('Link' object has no attribute 'type')` on the
first iteration, so the loop yields an exception for every non-empty
links list and completes normally (producing no candidate) only when the
list is empty. -/
def pdfUrlFromLinks : List Link → Except PyErr (Option String)
  | [] => Except.ok none
  | _ :: _ => Except.error (PyErr.attributeError "Link" "type")

/-- `re.search(r"/abs/(.+)$", id)`: the leftmost occurrence of `/abs/`
that is followed by at least one character; the greedy `(.+)$` captures
everything after it up to the end of the (newline-free) string. -/
def findAbsTail : List Char → Option (List Char)
  | [] => none
  | c :: cs =>
    let s := c :: cs
    let tail := s.drop 5
    if "/abs/".data.isPrefixOf s && tail ≠ [] then some tail
    else findAbsTail cs

/-- The id-derived fallback of `pdf_url`: synthesize
`https://arxiv.org/pdf/<tail>.pdf` from an `/abs/<tail>` id and validate
that the constructed URL's scheme is `https`. -/
def constructedPdfUrl (id : String) : Option String :=
  match findAbsTail id.data with
  | none => none
  | some tail =>
    let url := "https://arxiv.org/pdf/" ++ String.mk tail ++ ".pdf"
    if urlScheme url = "https" then some url else none

/-- `ArxivPaper.pdf_url` (arxiv_sdk/models.py lines 53-96): scan the links
(raising `AttributeError` as soon as the loop body runs, see
`pdfUrlFromLinks`), then fall back to the id-derived URL when `self.id`
is truthy. -/
def ArxivPaper.pdfUrl (p : ArxivPaper) : Except PyErr (Option String) :=
  match pdfUrlFromLinks p.links with
  | Except.error e => Except.error e
  | Except.ok (some u) => Except.ok (some u)
  | Except.ok none =>
    if p.id ≠ "" then Except.ok (constructedPdfUrl p.id) else Except.ok none

/-! ## `_slugify` (arxiv_sdk/client.py 212-222, academic_sdk/base_client.py 82-95)

The pipeline is: NFKD-normalize, encode to ASCII dropping non-encodable
characters, lower-case, collapse every run of `[^a-z0-9]` to `_`, strip
`_` from both ends, and truncate to 80 characters re-stripping a trailing
`_`.  The Unicode environment is embedded for the character inventory the
development uses: ASCII characters have no compatibility decomposition,
and U+2122 TRADE MARK SIGN decomposes (NFKD, `<compat>`) to `TM`. -/

/-- `unicodedata.normalize('NFKD', ·)` per character, for the modelled
inventory: identity on ASCII, and `™ ↦ "TM"` (UnicodeData entry
`2122;...;<compat> 0054 004D`). -/
def nfkdChar (c : Char) : List Char :=
  if c = '™' then ['T', 'M'] else [c]

/-- Python `str.isalnum` for the modelled inventory: true exactly on
ASCII letters and digits; `™` (category So) is not alphanumeric. -/
def pyIsAlnum (c : Char) : Bool :=
  ('a' ≤ c && c ≤ 'z') || ('A' ≤ c && c ≤ 'Z') || ('0' ≤ c && c ≤ '9')

/-- Characters kept verbatim by `re.sub(r"[^a-z0-9]+", '_', ·)`. -/
def isSlugChar (c : Char) : Bool :=
  ('a' ≤ c && c ≤ 'z') || ('0' ≤ c && c ≤ '9')

/-- `re.sub(r"[^a-z0-9]+", '_', ·)`: every maximal run of non-slug
characters becomes a single `_`. -/
def collapseNonSlug : List Char → List Char
  | [] => []
  | c :: cs =>
    if isSlugChar c then c :: collapseNonSlug cs
    else
      match cs with
      | [] => ['_']
      | c2 :: _ =>
        if isSlugChar c2 then '_' :: collapseNonSlug cs
        else collapseNonSlug cs

/-- `str.strip('_')` on the left. -/
def lstripUnderscore (l : List Char) : List Char := l.dropWhile (· = '_')

/-- `str.rstrip('_')`. -/
def rstripUnderscore (l : List Char) : List Char :=
  (l.reverse.dropWhile (· = '_')).reverse

/-- `_slugify(text, maxlen=80)` on the character list of `text`. -/
def pySlugify (s : List Char) : List Char :=
  if s = [] then []
  else
    let t := s.flatMap nfkdChar
    let t := t.filter (fun c => c.toNat < 128)
    let t := t.map pyLowerChar
    let t := collapseNonSlug t
    let t := rstripUnderscore (lstripUnderscore t)
    if 80 < t.length then rstripUnderscore (t.take 80) else t

/-- `_slugify` on `String`s. -/
def slugifyStr (s : String) : String := String.mk (pySlugify s.data)

/-- No two adjacent underscores (an invariant of `_slugify` output used
to prove its idempotence). -/
def noAdjacentUnderscores : List Char → Bool
  | [] => true
  | [_] => true
  | c1 :: c2 :: t => !(c1 = '_' && c2 = '_') && noAdjacentUnderscores (c2 :: t)

/-! ## Category subdirectory name
(arxiv_sdk/client.py 237-248, academic_sdk/base_client.py 97-111) -/

/-- Python truthiness of an optional string (`None` and `""` are falsy). -/
def pyTruthyStr : Option String → Bool
  | none => false
  | some s => s ≠ ""

/-- The category-folder computation shared by both download paths:
`str(cat).replace('.', '_').upper()` guarded by truthiness, with
`"UNKNOWN"` as the fallback (arxiv_sdk/client.py 238-248). -/
def catDirName (cat : Option String) : String :=
  match cat with
  | some c =>
    if c ≠ "" then
      let replaced := c.data.map (fun ch => if ch = '.' then '_' else ch)
      let catName := String.mk (replaced.map pyUpperChar)
      if catName = "" then "UNKNOWN" else catName
    else "UNKNOWN"
  | none => "UNKNOWN"

/-- `BaseClient._get_category_dir`'s name computation
(academic_sdk/base_client.py 97-108): the category source is
`getattr(paper, 'primary_category', None) or getattr(paper, 'venue',
None)` — primary category falling back to venue under truthiness. -/
def catDirNameBase (primary venue : Option String) : String :=
  catDirName (if pyTruthyStr primary then primary else venue)

/-! ## Date parsing (`QueryBuilder._parse_date`, arxiv_sdk/query.py 80-107)

The embedded parser is the deterministic fallback of `_parse_date`: the
fixed list of `datetime.strptime` formats tried in order
(`%Y-%m-%d %H:%M`, `%Y/%m/%d %H:%M`, `%Y%m%d %H:%M`, `%Y-%m-%d`,
`%Y/%m/%d`, `%Y%m%d`, `%Y-%m`, `%Y`), each value then stamped UTC.
CPython's `strptime` compiles a format to a regex
(`%Y ↦ \d{4}`, `%m ↦ 1[0-2]|0[1-9]|[1-9]`, `%d ↦ 3[01]|[12]\d|0[1-9]|[1-9]`,
`%H ↦ 2[0-3]|[0-1]\d|\d`, `%M ↦ [0-5]\d|\d`), takes the first
backtracking match, then requires the whole input consumed and a valid
calendar date (the `datetime` constructor).  The matchers below produce
the alternative list in exactly the regex backtracking order. -/

/-- Numeric value of a decimal digit character. -/
def digitVal (c : Char) : Nat := c.toNat - 48

/-- A naive UTC datetime to minute precision; every value produced by the
embedded parser has zero seconds and microseconds, so five fields are a
faithful carrier for the comparisons and formatting the code performs. -/
structure PyDateTime where
  year : Nat
  month : Nat
  day : Nat
  hour : Nat
  minute : Nat
  deriving DecidableEq, Repr

/-- Lexicographic `datetime` comparison `a < b` (both values UTC with
zero seconds/microseconds). -/
def dtLtB (a b : PyDateTime) : Bool :=
  a.year < b.year || (a.year = b.year &&
    (a.month < b.month || (a.month = b.month &&
      (a.day < b.day || (a.day = b.day &&
        (a.hour < b.hour || (a.hour = b.hour && a.minute < b.minute)))))))

/-- Gregorian leap-year rule (as implemented by `datetime`). -/
def isLeapYear (y : Nat) : Bool :=
  y % 4 = 0 && (y % 100 ≠ 0 || y % 400 = 0)

/-- Number of days in a month.  The repository computes the last day of a
month as `datetime(year, month+1, 1) - timedelta(days=1)` (and `31` for
December), which agrees with this table. -/
def daysInMonth (y m : Nat) : Nat :=
  if m = 2 then (if isLeapYear y then 29 else 28)
  else if m = 4 || m = 6 || m = 9 || m = 11 then 30
  else 31

/-- `%Y`: exactly four decimal digits. -/
def reYear : List Char → List (Nat × List Char)
  | a :: b :: c :: d :: rest =>
    if a.isDigit && b.isDigit && c.isDigit && d.isDigit then
      [(((digitVal a * 10 + digitVal b) * 10 + digitVal c) * 10 + digitVal d, rest)]
    else []
  | _ => []

/-- `%m`: regex `1[0-2]|0[1-9]|[1-9]`, alternatives in regex order. -/
def reMonth (s : List Char) : List (Nat × List Char) :=
  (match s with
   | c1 :: c2 :: r =>
     if c1 = '1' && '0' ≤ c2 && c2 ≤ '2' then [(10 + digitVal c2, r)] else []
   | _ => []) ++
  (match s with
   | c1 :: c2 :: r =>
     if c1 = '0' && '1' ≤ c2 && c2 ≤ '9' then [(digitVal c2, r)] else []
   | _ => []) ++
  (match s with
   | c :: r => if '1' ≤ c && c ≤ '9' then [(digitVal c, r)] else []
   | _ => [])

/-- `%d`: regex `3[01]|[12]\d|0[1-9]|[1-9]`. -/
def reDay (s : List Char) : List (Nat × List Char) :=
  (match s with
   | c1 :: c2 :: r =>
     if c1 = '3' && (c2 = '0' || c2 = '1') then [(30 + digitVal c2, r)] else []
   | _ => []) ++
  (match s with
   | c1 :: c2 :: r =>
     if (c1 = '1' || c1 = '2') && c2.isDigit then [(digitVal c1 * 10 + digitVal c2, r)] else []
   | _ => []) ++
  (match s with
   | c1 :: c2 :: r =>
     if c1 = '0' && '1' ≤ c2 && c2 ≤ '9' then [(digitVal c2, r)] else []
   | _ => []) ++
  (match s with
   | c :: r => if '1' ≤ c && c ≤ '9' then [(digitVal c, r)] else []
   | _ => [])

/-- `%H`: regex `2[0-3]|[0-1]\d|\d`. -/
def reHour (s : List Char) : List (Nat × List Char) :=
  (match s with
   | c1 :: c2 :: r =>
     if c1 = '2' && '0' ≤ c2 && c2 ≤ '3' then [(20 + digitVal c2, r)] else []
   | _ => []) ++
  (match s with
   | c1 :: c2 :: r =>
     if (c1 = '0' || c1 = '1') && c2.isDigit then [(digitVal c1 * 10 + digitVal c2, r)] else []
   | _ => []) ++
  (match s with
   | c :: r => if c.isDigit then [(digitVal c, r)] else []
   | _ => [])

/-- `%M`: regex `[0-5]\d|\d`. -/
def reMinute (s : List Char) : List (Nat × List Char) :=
  (match s with
   | c1 :: c2 :: r =>
     if ('0' ≤ c1 && c1 ≤ '5') && c2.isDigit then [(digitVal c1 * 10 + digitVal c2, r)] else []
   | _ => []) ++
  (match s with
   | c :: r => if c.isDigit then [(digitVal c, r)] else []
   | _ => [])

/-- A literal character in the format. -/
def reLit (ch : Char) : List Char → List (List Char)
  | c :: r => if c = ch then [r] else []
  | [] => []

/-- An optional separator between date components. -/
def reSep (sep : Option Char) (s : List Char) : List (List Char) :=
  match sep with
  | some ch => reLit ch s
  | none => [s]

/-- `%Y<sep>%m<sep>%d` with backtracking, paths in regex order. -/
def fmtDate (sep : Option Char) (s : List Char) :
    List ((Nat × Nat × Nat) × List Char) :=
  (reYear s).flatMap fun ys =>
    (reSep sep ys.2).flatMap fun s2 =>
      (reMonth s2).flatMap fun ms =>
        (reSep sep ms.2).flatMap fun s4 =>
          (reDay s4).map fun ds => ((ys.1, ms.1, ds.1), ds.2)

/-- `%H:%M`. -/
def fmtTime (s : List Char) : List ((Nat × Nat) × List Char) :=
  (reHour s).flatMap fun hs =>
    (reLit ':' hs.2).flatMap fun s2 =>
      (reMinute s2).map fun ms => ((hs.1, ms.1), ms.2)

/-- `%Y<sep>%m<sep>%d %H:%M`. -/
def fmtDateTime (sep : Option Char) (s : List Char) :
    List (PyDateTime × List Char) :=
  (fmtDate sep s).flatMap fun ds =>
    (reLit ' ' ds.2).flatMap fun s2 =>
      (fmtTime s2).map fun ts =>
        (⟨ds.1.1, ds.1.2.1, ds.1.2.2, ts.1.1, ts.1.2⟩, ts.2)

/-- `%Y<sep>%m<sep>%d` (time defaults to midnight). -/
def fmtDateOnly (sep : Option Char) (s : List Char) :
    List (PyDateTime × List Char) :=
  (fmtDate sep s).map fun ds => (⟨ds.1.1, ds.1.2.1, ds.1.2.2, 0, 0⟩, ds.2)

/-- `%Y-%m` (day defaults to 1). -/
def fmtYearMonth (s : List Char) : List (PyDateTime × List Char) :=
  (reYear s).flatMap fun ys =>
    (reLit '-' ys.2).flatMap fun s2 =>
      (reMonth s2).map fun ms => (⟨ys.1, ms.1, 1, 0, 0⟩, ms.2)

/-- `%Y` (January 1st). -/
def fmtYearOnly (s : List Char) : List (PyDateTime × List Char) :=
  (reYear s).map fun ys => (⟨ys.1, 1, 1, 0, 0⟩, ys.2)

/-- The `datetime` constructor's validation (`MINYEAR ≤ year ≤ MAXYEAR`,
month/day/hour/minute in range for the calendar). -/
def validDate (dt : PyDateTime) : Bool :=
  1 ≤ dt.year && dt.year ≤ 9999 && 1 ≤ dt.month && dt.month ≤ 12 &&
    1 ≤ dt.day && dt.day ≤ daysInMonth dt.year dt.month &&
    dt.hour ≤ 23 && dt.minute ≤ 59

/-- One `strptime` attempt: the regex returns its first backtracking
match; `strptime` then fails unless the whole string was consumed, and
the `datetime` constructor fails on an invalid calendar date.  Any
failure makes `_parse_date` move to the next format. -/
def strptimeWith (paths : List (PyDateTime × List Char)) : Option PyDateTime :=
  match paths with
  | [] => none
  | (dt, rest) :: _ => if rest = [] && validDate dt then some dt else none

/-- The outcomes of the eight `strptime` attempts, in the order of the
`fmts` list of `_parse_date`. -/
def formatsList (s : List Char) : List (Option PyDateTime) :=
  [strptimeWith (fmtDateTime (some '-') s),
   strptimeWith (fmtDateTime (some '/') s),
   strptimeWith (fmtDateTime none s),
   strptimeWith (fmtDateOnly (some '-') s),
   strptimeWith (fmtDateOnly (some '/') s),
   strptimeWith (fmtDateOnly none s),
   strptimeWith (fmtYearMonth s),
   strptimeWith (fmtYearOnly s)]

/-- The `for fmt in fmts: try ... except: continue` loop: the first
format that succeeds wins. -/
def firstSome : List (Option PyDateTime) → Option PyDateTime
  | [] => none
  | some x :: _ => some x
  | none :: rest => firstSome rest

/-- First successful format, in the order of the `fmts` list of
`_parse_date`. -/
def tryFormats (s : List Char) : Option PyDateTime :=
  firstSome (formatsList s)

/-- `_parse_date` (fallback branch): try the formats in order, stamping
the naive result UTC; raise `ValueError` when none matches. -/
def parseDate (s : String) : Except PyErr PyDateTime :=
  match tryFormats s.data with
  | some dt => Except.ok dt
  | none => Except.error (PyErr.valueError ("Unrecognized date format: " ++ s))

/-! ## `QueryBuilder.date_range` / `today` / `build`
(arxiv_sdk/query.py 109-153) -/

/-- Left-pad a numeral with zeros to the given width. -/
def padNum (width n : Nat) : String :=
  let s := toString n
  String.mk (List.replicate (width - s.length) '0') ++ s

/-- `strftime("%Y%m%d%H%M")`.  `%m`, `%d`, `%H`, `%M` are zero-padded
two-digit fields; `%Y` renders the year *without* zero padding (CPython
on glibc: `datetime(999,1,1).strftime("%Y")` is `"999"`), so the result
has 12 characters exactly when the year has four digits. -/
def fmt12 (dt : PyDateTime) : String :=
  toString dt.year ++ padNum 2 dt.month ++ padNum 2 dt.day ++
    padNum 2 dt.hour ++ padNum 2 dt.minute

/-- `re.match(r"^\d{4}$", e)` (full string, `e` newline-free). -/
def isYearOnlyStr (e : String) : Bool :=
  e.data.length = 4 && e.data.all Char.isDigit

/-- `re.match(r"^\d{4}-\d{2}$", e)`. -/
def isYearMonthStr (e : String) : Bool :=
  match e.data with
  | [a, b, c, d, h, x, y] =>
    a.isDigit && b.isDigit && c.isDigit && d.isDigit && h = '-' &&
      x.isDigit && y.isDigit
  | _ => false

/-- The `end_inclusive` expansion step of `date_range` (query.py
114-130): when the parsed end has zeroed time and the end *string*
matches `^\d{4}(-\d{2})?$`, widen a bare year to Dec 31 23:59 and a
year-month to its last calendar day 23:59. -/
def dateRangeEndExpand (endStr : String) (e : PyDateTime)
    (endInclusive : Bool) : PyDateTime :=
  if endInclusive then
    if e.hour = 0 && e.minute = 0 && (isYearOnlyStr endStr || isYearMonthStr endStr) then
      if isYearOnlyStr endStr then
        { e with month := 12, day := 31, hour := 23, minute := 59 }
      else if isYearMonthStr endStr then
        { e with day := daysInMonth e.year e.month, hour := 23, minute := 59 }
      else e
    else e
  else e

/-- The pure core of `date_range`: parse both endpoints, expand the end,
enforce ordering, and render the single range token. -/
def dateRangeToken (startStr endStr : String) (endInclusive : Bool) :
    Except PyErr String :=
  match parseDate startStr with
  | Except.error e => Except.error e
  | Except.ok sdt =>
    match parseDate endStr with
    | Except.error e => Except.error e
    | Except.ok edt =>
      let edt' := dateRangeEndExpand endStr edt endInclusive
      if dtLtB edt' sdt then
        Except.error (PyErr.valueError "start date must be <= end date")
      else
        Except.ok ("submittedDate:[" ++ fmt12 sdt ++ " TO " ++ fmt12 edt' ++ "]")

/-- The mutable state of a `QueryBuilder` (query.py 20-26). -/
structure QueryBuilder where
  parts : List String := []
  sortBy : Option String := none
  sortOrder : Option String := none
  today_used : Bool := false
  date_range_used : Bool := false
  deriving DecidableEq, Repr

/-- `QueryBuilder.date_range` (query.py 109-137): on success appends the
single range token and records the flag; the today/date-range conflict
is *not* inspected here. -/
def QueryBuilder.date_range (q : QueryBuilder) (startStr endStr : String)
    (endInclusive : Bool := true) : Except PyErr QueryBuilder :=
  (dateRangeToken startStr endStr endInclusive).map fun t =>
    { q with parts := q.parts ++ [t], date_range_used := true }

/-- The token appended by `today()` for current UTC time `now`:
start-of-day to end-of-day, rendered to minute precision by
`strftime("%Y%m%d%H%M")`. -/
def todayToken (now : PyDateTime) : String :=
  "submittedDate:[" ++ fmt12 { now with hour := 0, minute := 0 } ++ " TO " ++
    fmt12 { now with hour := 23, minute := 59 } ++ "]"

/-- `QueryBuilder.today` (query.py 139-147), with the ambient
`datetime.now(timezone.utc)` passed explicitly.  Always succeeds; the
conflict with `date_range` is not inspected here. -/
def QueryBuilder.today (q : QueryBuilder) (now : PyDateTime) : QueryBuilder :=
  { q with parts := q.parts ++ [todayToken now], today_used := true }

/-- `QueryBuilder.build` (query.py 149-153): the only place the
today/date-range conflict is checked; otherwise the tokens are joined by
single spaces. -/
def QueryBuilder.build (q : QueryBuilder) : Except PyErr String :=
  if q.today_used && q.date_range_used then
    Except.error (PyErr.valueError "Cannot use both today() and date_range() in the same query")
  else
    Except.ok (String.intercalate " " q.parts)

/-! ## Retry loops

Each loop is driven by an oracle `out : Nat → ·` giving the outcome of
the n-th HTTP attempt.  The returned record exposes the number of
attempts actually issued and the list of backoff delays slept, so that
"retried" and "surfaced immediately" are observable. -/

/-- Outcome of one attempt of `session.get` in the arXiv sync client: a
response (with status and body) or a `requests.RequestException` raised
by the transport (connection/timeout). -/
inductive ReqOutcome where
  | response (status : Nat) (body : String)
  | transportErr (msg : String)
  deriving DecidableEq, Repr

/-- Result of a retry loop around a body yielding `β`. -/
structure RetryResult (β : Type) where
  attempts : Nat
  sleeps : List Nat
  result : Except PyErr β
  deriving Repr

/-- `for attempt in range(3): try: resp = session.get(...); break except
RequestException: if attempt == 2: raise ArxivNetworkError(e);
time.sleep(2 ** attempt)` (arxiv_sdk/client.py 97-106).  Structured on
remaining fuel; `fuel = 1` is the last attempt.  The fuel-0 case is
unreachable from the entry point `arxivHttpRetry` (fuel 3). -/
def arxivRetryGo (out : Nat → ReqOutcome) :
    Nat → Nat → List Nat → RetryResult (Nat × String)
  | attempt, 0, sleeps =>
    ⟨attempt, sleeps, Except.error (PyErr.arxivNetworkError "unreachable")⟩
  | attempt, 1, sleeps =>
    match out attempt with
    | ReqOutcome.response s b => ⟨attempt + 1, sleeps, Except.ok (s, b)⟩
    | ReqOutcome.transportErr m =>
      ⟨attempt + 1, sleeps, Except.error (PyErr.arxivNetworkError m)⟩
  | attempt, f + 2, sleeps =>
    match out attempt with
    | ReqOutcome.response s b => ⟨attempt + 1, sleeps, Except.ok (s, b)⟩
    | ReqOutcome.transportErr _ =>
      arxivRetryGo out (attempt + 1) (f + 1) (sleeps ++ [2 ^ attempt])

/-- The arXiv client's 3-attempt request loop. -/
def arxivHttpRetry (out : Nat → ReqOutcome) : RetryResult (Nat × String) :=
  arxivRetryGo out 0 3 []

/-- Outcome of one attempt of `request_func()` in
`SemanticScholarClient._retry_request`: the function ends with
`resp.raise_for_status()`, so a non-2xx response raises
`requests.HTTPError` — a subclass of `requests.RequestException` — and is
caught by the retry clause exactly like a transport failure. -/
inductive SSOutcome where
  | ok (body : String)
  | httpStatusError (status : Nat) (msg : String)
  | transportErr (msg : String)
  deriving DecidableEq, Repr

/-- The exception re-raised by `raise` on the last attempt. -/
def ssOutcomeErr : SSOutcome → PyErr
  | SSOutcome.ok b => PyErr.genericException b
  | SSOutcome.httpStatusError s m => PyErr.httpError s m
  | SSOutcome.transportErr m => PyErr.requestException m

/-- `SemanticScholarClient._retry_request` (semantic_scholar_sdk/client.py
27-42): `backoff = 1`; three attempts; **every** `RequestException` —
including `HTTPError` from `raise_for_status`, with a dedicated log
branch for status 429 — is retried with `sleep(backoff)`,
`backoff = min(backoff * 2, 30)`; the last failure is re-raised.  The
trailing `raise AcademicNetworkError("Max retries exceeded")` is
unreachable (fuel-0 case). -/
def ssRetryGo (out : Nat → SSOutcome) :
    Nat → Nat → Nat → List Nat → RetryResult String
  | attempt, _, 0, sleeps =>
    ⟨attempt, sleeps, Except.error (PyErr.academicNetworkError "Max retries exceeded")⟩
  | attempt, _, 1, sleeps =>
    match out attempt with
    | SSOutcome.ok b => ⟨attempt + 1, sleeps, Except.ok b⟩
    | o => ⟨attempt + 1, sleeps, Except.error (ssOutcomeErr o)⟩
  | attempt, backoff, f + 2, sleeps =>
    match out attempt with
    | SSOutcome.ok b => ⟨attempt + 1, sleeps, Except.ok b⟩
    | _ => ssRetryGo out (attempt + 1) (min (backoff * 2) 30) (f + 1) (sleeps ++ [backoff])

/-- Entry point of `_retry_request` with the default `max_retries=3`. -/
def ssRetryRequest (out : Nat → SSOutcome) : RetryResult String :=
  ssRetryGo out 0 1 3 []

/-- Outcome of one attempt in `BaseClient._retry_request`
(academic_sdk/base_client.py 33-46), whose `except (Exception)` clause —
"Broad exception for retries" — retries *any* exception, HTTP-status
errors included. -/
inductive BaseOutcome where
  | ok (body : String)
  | exc (msg : String)
  deriving DecidableEq, Repr

/-- `BaseClient._retry_request`: same shape as the Semantic Scholar loop
but catching every exception. -/
def baseRetryGo (out : Nat → BaseOutcome) :
    Nat → Nat → Nat → List Nat → RetryResult String
  | attempt, _, 0, sleeps =>
    ⟨attempt, sleeps, Except.error (PyErr.genericException "unreachable")⟩
  | attempt, _, 1, sleeps =>
    match out attempt with
    | BaseOutcome.ok b => ⟨attempt + 1, sleeps, Except.ok b⟩
    | BaseOutcome.exc m => ⟨attempt + 1, sleeps, Except.error (PyErr.genericException m)⟩
  | attempt, backoff, f + 2, sleeps =>
    match out attempt with
    | BaseOutcome.ok b => ⟨attempt + 1, sleeps, Except.ok b⟩
    | BaseOutcome.exc _ =>
      baseRetryGo out (attempt + 1) (min (backoff * 2) 30) (f + 1) (sleeps ++ [backoff])

/-- Entry point of `BaseClient._retry_request` (default `max_retries=3`). -/
def baseRetryRequest (out : Nat → BaseOutcome) : RetryResult String :=
  baseRetryGo out 0 1 3 []

/-! ## `ArxivClient.search` (arxiv_sdk/client.py 60-154) -/

/-- The duck-typed `query` argument: a raw string or a builder object
(anything failing `hasattr(query, 'build')` raises a `ValueError`; the
two admissible shapes are modelled). -/
inductive QueryInput where
  | raw (s : String)
  | builder (q : QueryBuilder)

/-- Python `str.strip()` whitespace (the ASCII portion, which covers
every string the embedded code produces). -/
def isPyWhitespace (c : Char) : Bool :=
  c = ' ' || c = '\t' || c = '\n' || c = '\r' || c = '\x0b' || c = '\x0c'

/-- `str.strip()`. -/
def pyStrip (s : String) : String :=
  String.mk (((s.data.dropWhile isPyWhitespace).reverse.dropWhile isPyWhitespace).reverse)

/-- The validation prefix of `search` (client.py 61-81), executed before
the rate limit is applied and before any request: resolve the query
argument (raw string must be non-blank; a builder is `build()`-ed, which
may itself raise), then check `start ≥ 0`, `max_results ≥ 0`,
`max_results ≤ 2000`.  Returns the search string with the builder's sort
parameters. -/
def searchValidate (query : QueryInput) (start maxResults : Int) :
    Except PyErr (String × Option String × Option String) :=
  let qres : Except PyErr (String × Option String × Option String) :=
    match query with
    | QueryInput.raw s =>
      if pyStrip s = "" then Except.error (PyErr.valueError "query string cannot be empty")
      else Except.ok (s, none, none)
    | QueryInput.builder q =>
      match q.build with
      | Except.error e => Except.error e
      | Except.ok sq => Except.ok (sq, q.sortBy, q.sortOrder)
  match qres with
  | Except.error e => Except.error e
  | Except.ok r =>
    if start < 0 then Except.error (PyErr.valueError "start must be >= 0")
    else if maxResults < 0 then Except.error (PyErr.valueError "max_results must be >= 0")
    else if maxResults > 2000 then
      Except.error (PyErr.valueError "max_results must be <= 2000 per request; page large sets in slices")
    else Except.ok r

/-- What `feedparser.parse` hands back, abstracted over the entry type:
the entry list plus the OpenSearch pagination fields after the client's
guarded `int(...)` conversions (a failed conversion is already `none`
here).  `feedparser` results always expose `entries`, so the
`hasattr(feed, 'entries')` guard in the client never fires. -/
structure FeedView (α : Type) where
  entries : List α
  totalResults : Option Int := none
  startIndex : Option Int := none
  itemsPerPage : Option Int := none

/-- `ArxivResultSet` (arxiv_sdk/models.py 109-118). -/
structure ArxivResultSet where
  entries : List ArxivPaper
  total_results : Option Int := none
  start_index : Option Int := none
  items_per_page : Option Int := none
  query : Option String := none
  sortBy : Option String := none
  sortOrder : Option String := none
  deriving DecidableEq, Repr

/-- The entry loop of `search` (client.py 136-146): validate each entry
with `ArxivPaper.model_validate` (abstracted as `pf`), keeping parsed
papers in feed order and recording `{'index': idx, 'error': str(e)}` for
each failure, in feed order. -/
def collectEntries {α : Type} (pf : α → Except String ArxivPaper) :
    Nat → List α → List ArxivPaper × List (Nat × String)
  | _, [] => ([], [])
  | idx, x :: xs =>
    let rest := collectEntries pf (idx + 1) xs
    match pf x with
    | Except.ok p => (p :: rest.1, rest.2)
    | Except.error m => (rest.1, (idx, m) :: rest.2)

/-- The message of the all-or-nothing parse failure (client.py 151). -/
def parseErrMsg (n idx : Nat) (msg : String) : String :=
  toString n ++ " entries failed to parse (first at index " ++ toString idx ++ "): " ++ msg

/-- The parse phase of `search` (client.py 136-154): if any entry failed,
raise an `ArxivParseError` summarizing the count and the first failure;
otherwise build the `ArxivResultSet`. -/
def parsePhase {α : Type} (pf : α → Except String ArxivPaper) (fv : FeedView α)
    (sq : String) (sb so : Option String) : Except PyErr ArxivResultSet :=
  let pe := collectEntries pf 0 fv.entries
  match pe.2 with
  | [] =>
    Except.ok { entries := pe.1, total_results := fv.totalResults,
                start_index := fv.startIndex, items_per_page := fv.itemsPerPage,
                query := some sq, sortBy := sb, sortOrder := so }
  | (i, m) :: _ => Except.error (PyErr.arxivParseError (parseErrMsg pe.2.length i m))

/-- Observable outcome of one `search` call: whether the rate limit was
applied, how many HTTP requests were issued, the backoff delays slept,
and the result. -/
structure SearchRes where
  rateLimited : Bool
  attempts : Nat
  sleeps : List Nat
  result : Except PyErr ArxivResultSet

/-- `ArxivClient.search` end to end: validation, rate limit, the retry
loop, the `status_code != 200` check surfacing `ArxivAPIError(status,
body)`, then the parse phase.  `out` is the per-attempt transport oracle
and `feedOf` abstracts `feedparser.parse` on the response body. -/
def arxivSearch {α : Type} (query : QueryInput) (start maxResults : Int)
    (out : Nat → ReqOutcome) (feedOf : String → FeedView α)
    (pf : α → Except String ArxivPaper) : SearchRes :=
  match searchValidate query start maxResults with
  | Except.error e => ⟨false, 0, [], Except.error e⟩
  | Except.ok (sq, sb, so) =>
    let rr := arxivHttpRetry out
    match rr.result with
    | Except.error e => ⟨true, rr.attempts, rr.sleeps, Except.error e⟩
    | Except.ok (status, body) =>
      if status ≠ 200 then
        ⟨true, rr.attempts, rr.sleeps, Except.error (PyErr.arxivAPIError status body)⟩
      else
        ⟨true, rr.attempts, rr.sleeps, parsePhase pf (feedOf body) sq sb so⟩

/-! ## Download pipeline (arxiv_sdk/client.py 182-288,
academic_sdk/base_client.py 58-111)

The filesystem is explicit (`Fs`), effects are traced (`DlEff`) so that
"no network fetch" and "file left unchanged" are observable statements,
and filesystem operations are modelled as succeeding (no claim concerns
`OSError` paths). -/

/-- Content written to the filesystem: streamed PDF chunks, the metadata
sidecar (the `model_dump_json` serialization, kept symbolic), or opaque
data written by an abstract `_download_file` implementation. -/
inductive FileData where
  | pdfContent (chunks : List String)
  | metadataJson (p : ArxivPaper)
  | rawFile (s : String)
  deriving DecidableEq, Repr

/-- A flat filesystem: files with contents, plus existing directories. -/
structure Fs where
  files : List (String × FileData)
  dirs : List String
  deriving DecidableEq, Repr

/-- `os.path.exists` (true for files and directories). -/
def Fs.existsPath (fs : Fs) (p : String) : Bool :=
  fs.files.any (fun f => f.1 = p) || fs.dirs.contains p

/-- `os.path.isdir`. -/
def Fs.isDir (fs : Fs) (p : String) : Bool := fs.dirs.contains p

/-- `os.makedirs(p, exist_ok=True)`. -/
def Fs.mkdirp (fs : Fs) (p : String) : Fs :=
  if fs.dirs.contains p then fs else { fs with dirs := fs.dirs ++ [p] }

/-- `open(p, 'wb')` + write. -/
def Fs.write (fs : Fs) (p : String) (d : FileData) : Fs :=
  { fs with files := (fs.files.filter (fun f => f.1 ≠ p)) ++ [(p, d)] }

/-- `os.remove`. -/
def Fs.remove (fs : Fs) (p : String) : Fs :=
  { fs with files := fs.files.filter (fun f => f.1 ≠ p) }

/-- Observable side effects of a download call. -/
inductive DlEff where
  | rateLimitEff
  | httpGetEff (url : String)
  | sleepEff (seconds : Nat)
  | mkdirEff (path : String)
  | writePdfEff (path : String)
  | writeJsonEff (path : String)
  | removeEff (path : String)
  deriving DecidableEq, Repr

/-- An HTTP response as seen by `download_pdf`: status, final URL,
optional `content-disposition` header and the streamed body chunks. -/
structure Resp where
  status : Nat
  url : String
  contentDisposition : Option String := none
  chunks : List String := []
  deriving DecidableEq, Repr

/-- Outcome of one `session.get` attempt in the download loop. -/
inductive DlOutcome where
  | response (r : Resp)
  | transportErr (msg : String)

/-- Result of a download call: effect trace, final filesystem, result. -/
structure DlRes where
  trace : List DlEff
  fs : Fs
  result : Except PyErr String
  deriving DecidableEq, Repr

/-- `os.path.join` for a relative second component. -/
def pathJoin (a b : String) : String :=
  if a.data.getLast? = some '/' then a ++ b else a ++ "/" ++ b

/-- `urlparse(u).path`: strip a valid scheme, skip a `//netloc` segment,
cut at `?` or `#`. -/
def urlPath (u : String) : String :=
  let l := u.data
  let rest :=
    if urlScheme u ≠ "" then l.drop ((urlScheme u).length + 1) else l
  let rest :=
    if "//".data.isPrefixOf rest then
      (rest.drop 2).dropWhile (fun c => c ≠ '/' && c ≠ '?' && c ≠ '#')
    else rest
  String.mk (rest.takeWhile (fun c => c ≠ '?' && c ≠ '#'))

/-- `os.path.basename`: the text after the last `/`. -/
def pyBasename (p : String) : String :=
  String.mk (p.data.reverse.takeWhile (fun c => c ≠ '/')).reverse

/-- `os.path.splitext(p)[0]` for a basename: cut at the last dot unless
every character before it is a dot (hidden-file rule). -/
def splitextStem (p : String) : String :=
  let l := p.data
  match l.reverse.dropWhile (fun c => c ≠ '.') with
  | [] => p
  | _ :: stemRev =>
    if stemRev.reverse.all (fun c => c = '.') then p
    else String.mk stemRev.reverse

/-- Hex digit value, for percent-decoding. -/
def hexVal (c : Char) : Option Nat :=
  if '0' ≤ c && c ≤ '9' then some (c.toNat - 48)
  else if 'a' ≤ c && c ≤ 'f' then some (c.toNat - 87)
  else if 'A' ≤ c && c ≤ 'F' then some (c.toNat - 55)
  else none

/-- `urllib.parse.unquote` for the single-byte range: `%XX` pairs decode
to the character with that code (multi-byte UTF-8 sequences do not occur
in the modelled inventory); other characters pass through. -/
def pyUnquote : List Char → List Char
  | [] => []
  | '%' :: h1 :: h2 :: r =>
    match hexVal h1, hexVal h2 with
    | some v1, some v2 => Char.ofNat (16 * v1 + v2) :: pyUnquote r
    | _, _ => '%' :: pyUnquote (h1 :: h2 :: r)
  | c :: r => c :: pyUnquote r

/-- Alternative 1 of the content-disposition regex.  Note the Python
source writes `r'filename\*=UTF-8''(.+)|...'`: the adjacent string
literals concatenate, so the pattern is `filename\*=UTF-8(.+)|...` with
no quote characters after the charset. -/
def cdAltA (s : List Char) : Option (List Char) :=
  if "filename*=UTF-8".data.isPrefixOf s then
    let rest := s.drop 15
    if rest ≠ [] then some rest else none
  else none

/-- Alternative 2: `filename="?([^";]+)"?`. -/
def cdAltB (s : List Char) : Option (List Char) :=
  if "filename=".data.isPrefixOf s then
    let rest := s.drop 9
    let rest2 := match rest with
      | '"' :: r => r
      | _ => rest
    let run := rest2.takeWhile (fun c => c ≠ '"' && c ≠ ';')
    if run ≠ [] then some run else none
  else none

/-- `re.search` of the content-disposition pattern: leftmost position at
which either alternative matches, alternative 1 preferred. -/
def cdSearch : List Char → Option (List Char)
  | [] => none
  | c :: cs =>
    match cdAltA (c :: cs) with
    | some g => some g
    | none =>
      match cdAltB (c :: cs) with
      | some g => some g
      | none => cdSearch cs

/-- `full.replace('.pdf', '.json')` — *every* occurrence of `.pdf` in the
path is replaced, left to right. -/
def replacePdfJson : List Char → List Char
  | [] => []
  | c :: cs =>
    if ".pdf".data.isPrefixOf (c :: cs) then
      ".json".data ++ replacePdfJson (cs.drop 3)
    else c :: replacePdfJson cs
termination_by l => l.length
decreasing_by
  · simp only [List.length_cons, List.length_drop]
    omega
  · simp

/-- Result of one iteration of the download loop's `try` body:
`retryable` is an exception caught by `except (RequestException,
OSError)` (here: `raise_for_status` on a non-2xx response), `done` is a
normal return or a non-retryable exception. -/
inductive AttemptRes where
  | retryable (msg : String)
  | done (fs : Fs) (effs : List DlEff) (result : Except PyErr String)

/-- The response-derived filename (client.py 192-200): the
content-disposition regex if it matches, else the basename of the final
URL's path. -/
def dlFilename (r : Resp) : String :=
  let cdname : Option String :=
    match r.contentDisposition with
    | some cd => (cdSearch cd.data).map (fun g => String.mk (pyUnquote g))
    | none => none
  match cdname with
  | some f => if f = "" then pyBasename (urlPath r.url) else f
  | none => pyBasename (urlPath r.url)

/-- The final on-disk name `slug[-arxivid].pdf` (client.py 201-231). -/
def dlFinalName (paper : ArxivPaper) (r : Resp) : String :=
  let arxivId := (findAbsTail paper.id.data).map String.mk
  let slug0 := slugifyStr paper.title
  let titleSlug := if slug0 = "" then splitextStem (dlFilename r) else slug0
  match arxivId with
  | some aid => titleSlug ++ "-" ++ aid ++ ".pdf"
  | none => titleSlug ++ ".pdf"

/-- The body of one download attempt (arxiv_sdk/client.py 189-282):
`raise_for_status`; filename and final name as above; destination-dir
precondition; category subfolder (created before the existence check);
early return when the target exists and `overwrite` is unset; otherwise
stream chunks, reject an empty body, write the JSON sidecar. -/
def arxivDlAttempt (paper : ArxivPaper) (dest : String) (overwrite : Bool)
    (fs : Fs) (r : Resp) : AttemptRes :=
  if 400 ≤ r.status then AttemptRes.retryable ("HTTP " ++ toString r.status)
  else
    let finalName := dlFinalName paper r
    if !fs.isDir dest then
      AttemptRes.done fs []
        (Except.error (PyErr.arxivDownloadError ("Destination path does not exist: " ++ dest)))
    else
      let catName := catDirName paper.primary_category
      let categoryDir := pathJoin dest catName
      let fs1 := fs.mkdirp categoryDir
      let full := pathJoin categoryDir finalName
      if fs1.existsPath full && !overwrite then
        AttemptRes.done fs1 [DlEff.mkdirEff categoryDir] (Except.ok full)
      else
        let content := r.chunks.filter (fun c => c ≠ "")
        let bytesWritten := (content.map String.length).sum
        let fs2 := fs1.write full (FileData.pdfContent content)
        if bytesWritten = 0 then
          AttemptRes.done (fs2.remove full)
            [DlEff.mkdirEff categoryDir, DlEff.writePdfEff full, DlEff.removeEff full]
            (Except.error (PyErr.arxivDownloadError "Downloaded file is empty"))
        else
          let jsonPath := String.mk (replacePdfJson full.data)
          let fs3 := fs2.write jsonPath (FileData.metadataJson paper)
          AttemptRes.done fs3
            [DlEff.mkdirEff categoryDir, DlEff.writePdfEff full, DlEff.writeJsonEff jsonPath]
            (Except.ok full)

/-- The download retry loop (client.py 187-288): `session.get` is issued
at the start of every attempt; transport failures and `raise_for_status`
errors are retried with `sleep(2 ** attempt)` and surfaced as
`ArxivDownloadError` after the third attempt. -/
def arxivDlGo (paper : ArxivPaper) (dest : String) (overwrite : Bool)
    (url : String) (out : Nat → DlOutcome) :
    Nat → Nat → Fs → List DlEff → DlRes
  | _, 0, fs, trace =>
    ⟨trace, fs, Except.error (PyErr.arxivDownloadError "unreachable")⟩
  | attempt, 1, fs, trace =>
    let trace := trace ++ [DlEff.httpGetEff url]
    match out attempt with
    | DlOutcome.transportErr m =>
      ⟨trace, fs, Except.error (PyErr.arxivDownloadError m)⟩
    | DlOutcome.response r =>
      match arxivDlAttempt paper dest overwrite fs r with
      | AttemptRes.retryable m =>
        ⟨trace, fs, Except.error (PyErr.arxivDownloadError m)⟩
      | AttemptRes.done fs' effs res => ⟨trace ++ effs, fs', res⟩
  | attempt, f + 2, fs, trace =>
    let trace := trace ++ [DlEff.httpGetEff url]
    match out attempt with
    | DlOutcome.transportErr _ =>
      arxivDlGo paper dest overwrite url out (attempt + 1) (f + 1) fs
        (trace ++ [DlEff.sleepEff (2 ^ attempt)])
    | DlOutcome.response r =>
      match arxivDlAttempt paper dest overwrite fs r with
      | AttemptRes.retryable _ =>
        arxivDlGo paper dest overwrite url out (attempt + 1) (f + 1) fs
          (trace ++ [DlEff.sleepEff (2 ^ attempt)])
      | AttemptRes.done fs' effs res => ⟨trace ++ effs, fs', res⟩

/-- `ArxivClient.download_pdf` (client.py 182-288): resolve the PDF URL
(`paper.pdf_url` — its exceptions propagate), fail when absent, apply
the rate limit, then run the 3-attempt loop. -/
def arxivDownloadPdf (paper : ArxivPaper) (dest : String) (overwrite : Bool)
    (out : Nat → DlOutcome) (fs : Fs) : DlRes :=
  match paper.pdfUrl with
  | Except.error e => ⟨[], fs, Except.error e⟩
  | Except.ok u =>
    if !pyTruthyStr u then
      ⟨[], fs, Except.error (PyErr.arxivDownloadError "No PDF URL available for this paper")⟩
    else
      arxivDlGo paper dest overwrite (u.getD "") out 0 3 fs [DlEff.rateLimitEff]

/-- The value of the duck-typed `open_access_pdf` attribute consulted by
`BaseClient.download_pdf`: missing (so `getattr(..., {})` yields `{}`),
the Python value `None` (on which `.get` raises `AttributeError`), or a
dict with an optional `url` entry. -/
inductive OapVal where
  | missing
  | pynone
  | dict (url : Option String)

/-- The duck-typed attributes of a paper as read by `BaseClient`
(`getattr`-based access).  `pdfUrl = none` covers both a missing
attribute and the value `None` — `getattr(paper, 'pdf_url', None)` also
returns `None` when a `pdf_url` property raises `AttributeError`. -/
structure BasePaper where
  pdfUrl : Option String := none
  openAccessPdf : OapVal := OapVal.missing
  title : String := ""
  id : String := ""
  primary_category : Option String := none
  venue : Option String := none

/-- `getattr(paper, 'pdf_url', None) or getattr(paper, 'open_access_pdf',
{}).get('url')` (base_client.py 61). -/
def baseResolvePdfUrl (p : BasePaper) : Except PyErr (Option String) :=
  if pyTruthyStr p.pdfUrl then Except.ok p.pdfUrl
  else
    match p.openAccessPdf with
    | OapVal.missing => Except.ok none
    | OapVal.pynone => Except.error (PyErr.attributeError "NoneType" "get")
    | OapVal.dict u => Except.ok u

/-- `"...".split('/')[-1]`. -/
def splitSlashLast (s : String) : String :=
  String.mk (s.data.reverse.takeWhile (fun c => c ≠ '/')).reverse

/-- The final on-disk name in the base client (base_client.py 65-71):
`slug[-<last '/'-component of the id>].pdf`. -/
def baseFinalName (p : BasePaper) : String :=
  let titleSlug := slugifyStr p.title
  let arxivId := if p.id ≠ "" then some (splitSlashLast p.id) else none
  match arxivId with
  | some aid => titleSlug ++ "-" ++ aid ++ ".pdf"
  | none => titleSlug ++ ".pdf"

/-- `BaseClient.download_pdf` (base_client.py 58-80): resolve the URL,
compute `slug[-id].pdf`, create the category directory
(`_get_category_dir` calls `makedirs`), and return early — before any
network activity — when the target exists and `overwrite` is unset;
otherwise delegate to the abstract `_download_file`, modelled by the
oracle `dlFile : url → dest → fs → (effects, fs, result)`. -/
def baseDownloadPdf (p : BasePaper) (dest : String) (overwrite : Bool)
    (dlFile : String → String → Fs → List DlEff × Fs × Except PyErr String)
    (fs : Fs) : DlRes :=
  match baseResolvePdfUrl p with
  | Except.error e => ⟨[], fs, Except.error e⟩
  | Except.ok u =>
    if !pyTruthyStr u then
      ⟨[], fs, Except.error (PyErr.academicDownloadError "No PDF URL available for this paper")⟩
    else
      let url := u.getD ""
      let finalName := baseFinalName p
      let catName := catDirNameBase p.primary_category p.venue
      let categoryDir := pathJoin dest catName
      let fs1 := fs.mkdirp categoryDir
      let full := pathJoin categoryDir finalName
      if fs1.existsPath full && !overwrite then
        ⟨[DlEff.mkdirEff categoryDir], fs1, Except.ok full⟩
      else
        let dres := dlFile url full fs1
        ⟨DlEff.mkdirEff categoryDir :: dres.1, dres.2.1, dres.2.2⟩

/-! ## Fixtures and spec-side definitions -/

/-- The typed-PDF-link fixture of the repository's own test suite
(src/tests/test_models.py, `make_entry`): the raw feed entry carries
`{'href': 'http://arxiv.org/pdf/2101.00001v2', 'rel': 'related', 'type':
'application/pdf'}`; pydantic validation against `Link` drops the
undeclared `type` key. -/
def c1Paper : ArxivPaper :=
  { id := "http://arxiv.org/abs/2101.00001v2"
    title := "Example Title"
    summary := some "An abstract."
    authors := [{ name := "Alice" }, { name := "Bob" }]
    links := [{ href := "http://arxiv.org/abs/2101.00001v2", rel := some "alternate" },
              { href := "http://arxiv.org/pdf/2101.00001v2", rel := some "related" }]
    primary_category := some "cs.LG" }

/-- The `ftp://`-link fixture of `test_pdf_url_invalid_scheme`
(src/tests/test_models.py lines 74-90); the raw entry's
`type: application/pdf` is dropped by `Link` validation. -/
def c6FtpPaper : ArxivPaper :=
  { id := "http://arxiv.org/abs/2101.00001v2"
    title := "Test"
    summary := some "Test"
    authors := [{ name := "Test" }]
    links := [{ href := "ftp://arxiv.org/pdf/2101.00001v2" }]
    primary_category := some "cs.LG" }

/-- The link-free fixture of `test_pdf_url_fallback`. -/
def c6NoLinksPaper : ArxivPaper :=
  { id := "http://arxiv.org/abs/2101.00001v2"
    title := "Test"
    summary := some "Test"
    authors := [{ name := "Test" }]
    links := []
    primary_category := some "cs.LG" }

/-- The unparseable-id fixture of `test_pdf_url_no_pdf`. -/
def c6BadIdPaper : ArxivPaper :=
  { id := "invalid_id"
    title := "Test"
    summary := some "Test"
    authors := [{ name := "Test" }]
    links := []
    primary_category := some "cs.LG" }

/-- The spec's description of the category-name computation ("primary
category converted to a string with every '.' replaced by '_' and
uppercased, `UNKNOWN` when absent or empty"), stated as one pass for
comparison with the code's two-pass computation (claim C10). -/
def specCategoryDirName (cat : Option String) : String :=
  match cat with
  | none => "UNKNOWN"
  | some c =>
    if c = "" then "UNKNOWN"
    else String.mk (c.data.map (fun ch => pyUpperChar (if ch = '.' then '_' else ch)))

/-- A transport oracle that always answers 200 with an empty body. -/
def outOk : Nat → ReqOutcome := fun _ => ReqOutcome.response 200 ""

/-- A feed oracle with no entries. -/
def feedNone : String → FeedView Unit := fun _ => { entries := [] }

/-- An entry parser that always fails. -/
def pfFail : Unit → Except String ArxivPaper := fun _ => Except.error "e"

/-- Whether an `Except` value is a success. -/
def exIsOk {ε β : Type} : Except ε β → Bool
  | Except.ok _ => true
  | Except.error _ => false

/-- The number of entries whose validation fails. -/
def countFailures {α : Type} (pf : α → Except String ArxivPaper) (xs : List α) : Nat :=
  (xs.filter (fun x => !exIsOk (pf x))).length

/-- A minimal well-formed paper record for witness feeds. -/
def pEntry : ArxivPaper := { id := "http://arxiv.org/abs/0001.00001v1", title := "T" }

/-- A four-entry feed keyed by index. -/
def feedFour : String → FeedView Nat := fun _ => { entries := [0, 1, 2, 3] }

/-- An entry parser failing exactly at index 1. -/
def pfBadAt1 : Nat → Except String ArxivPaper :=
  fun n => if n = 1 then Except.error "bad entry" else Except.ok pEntry

/-- An entry parser accepting everything. -/
def pfAllOk : Nat → Except String ArxivPaper := fun _ => Except.ok pEntry

/-- Link-free fixture paper for the download theorems. -/
def c8Paper : ArxivPaper :=
  { id := "http://arxiv.org/abs/2101.00001v2", title := "Test Paper",
    links := [], primary_category := some "cs.LG" }

/-- The PDF URL resolved for `c8Paper`. -/
def c8Url : String := "https://arxiv.org/pdf/2101.00001v2.pdf"

/-- A filesystem already holding the downloaded PDF and its sidecar. -/
def c8Fs : Fs :=
  { files := [("hub/CS_LG/test_paper-2101.00001v2.pdf", FileData.rawFile "pdf"),
              ("hub/CS_LG/test_paper-2101.00001v2.json", FileData.rawFile "meta")],
    dirs := ["hub", "hub/CS_LG"] }

/-- A successful 200 response for the PDF. -/
def c8Resp : Resp := { status := 200, url := c8Url, chunks := ["data"] }

/-- A base-client paper fixture with an explicit `pdf_url` attribute. -/
def c8Base : BasePaper :=
  { pdfUrl := some "https://example.org/x.pdf", title := "Test Paper",
    id := "http://arxiv.org/abs/2101.00001v2", primary_category := some "cs.LG" }

/-! ## Shared lemmas -/

/-- Reduction of `Except.map` on a success value. -/
theorem exceptMapOk {ε α β : Type} (f : α → β) (a : α) :
    Except.map f (Except.ok a : Except ε α) = Except.ok (f a) := rfl

/-- Reduction of `Except.map` on an error value. -/
theorem exceptMapErr {ε α β : Type} (f : α → β) (e : ε) :
    Except.map f (Except.error e : Except ε α) = Except.error e := rfl

/-! ## Claim theorems -/

/-- C1: the claim says a link whose declared MIME type is
`application/pdf` with an http(s) href wins PDF-URL resolution, with the
`.pdf` suffix appended.  On the code this is false: the `Link` model
declares no `type` field, so the first loop iteration of `pdf_url` raises
`AttributeError` for *every* paper with a non-empty links list — in
particular on the repository's own test fixture, where the tests assert
the result `"http://arxiv.org/pdf/2101.00001v2.pdf"`. -/
theorem C1_typed_link_raises_attribute_error :
    c1Paper.pdfUrl = Except.error (PyErr.attributeError "Link" "type") ∧
    c1Paper.pdfUrl ≠ Except.ok (some "http://arxiv.org/pdf/2101.00001v2.pdf") :=
  ⟨rfl, fun h => Except.noConfusion h⟩

/-- C6: on a paper whose only link is `ftp://...` the claim (and the
repository's test `test_pdf_url_invalid_scheme`) says the candidate is
rejected and resolution falls back to the id-derived URL; the code
instead raises `AttributeError` before ever inspecting the scheme,
because `Link` declares no `type` field.  The two link-free sub-claims do
hold: an `/abs/<tail>` id synthesizes `https://arxiv.org/pdf/<tail>.pdf`,
and an id without `/abs/` yields `None`. -/
theorem C6_no_candidate_fallback :
    c6FtpPaper.pdfUrl = Except.error (PyErr.attributeError "Link" "type") ∧
    c6FtpPaper.pdfUrl ≠ Except.ok (some "https://arxiv.org/pdf/2101.00001v2.pdf") ∧
    c6NoLinksPaper.pdfUrl = Except.ok (some "https://arxiv.org/pdf/2101.00001v2.pdf") ∧
    c6BadIdPaper.pdfUrl = Except.ok none :=
  ⟨rfl, fun h => Except.noConfusion h, rfl, rfl⟩

/-- C4: both clauses on one builder — in either order — make `build()`
fail; the conflict is not raised when the second clause is appended
(`today` is total and `date_range` succeeds whenever its dates are in
order, independently of the flags); with at most one of the two used,
`build()` joins all appended tokens with single spaces. -/
theorem C4_today_date_range_conflict (q : QueryBuilder) (now : PyDateTime)
    (s e : String) (incl : Bool) (t : String)
    (h : dateRangeToken s e incl = Except.ok t) :
    ((q.today now).date_range s e incl =
        Except.ok { q.today now with
                    parts := (q.today now).parts ++ [t], date_range_used := true })
  ∧ (∀ q₁, (q.today now).date_range s e incl = Except.ok q₁ →
      q₁.build = Except.error
        (PyErr.valueError "Cannot use both today() and date_range() in the same query"))
  ∧ (∀ q₂, q.date_range s e incl = Except.ok q₂ →
      (q₂.today now).build = Except.error
        (PyErr.valueError "Cannot use both today() and date_range() in the same query"))
  ∧ (q.today_used = false ∨ q.date_range_used = false →
      q.build = Except.ok (String.intercalate " " q.parts)) := by
  refine ⟨?_, ?_, ?_, ?_⟩
  · simp only [QueryBuilder.date_range, h, exceptMapOk]
  · intro q₁ h₁
    simp only [QueryBuilder.date_range, h, exceptMapOk, Except.ok.injEq] at h₁
    subst h₁
    simp [QueryBuilder.build, QueryBuilder.today]
  · intro q₂ h₂
    simp only [QueryBuilder.date_range, h, exceptMapOk, Except.ok.injEq] at h₂
    subst h₂
    simp [QueryBuilder.build, QueryBuilder.today]
  · intro hflag
    rcases hflag with hf | hf <;> simp [QueryBuilder.build, hf]

/-- Witness for C4 at concrete inputs: the date-range token for
2021-01-01..2021-12-31 is ordered and well formed, and the builder state
produced by `today` followed by `date_range` fails at `build`. -/
theorem C4_witness :
    dateRangeToken "2021-01-01" "2021-12" true =
      Except.ok "submittedDate:[202101010000 TO 202112312359]" ∧
    QueryBuilder.build
      { parts := ["submittedDate:[202401010000 TO 202401012359]",
                  "submittedDate:[202101010000 TO 202112312359]"],
        sortBy := none, sortOrder := none,
        today_used := true, date_range_used := true } =
      Except.error
        (PyErr.valueError "Cannot use both today() and date_range() in the same query") :=
  ⟨by decide,
   (C4_today_date_range_conflict {} ⟨2024, 1, 1, 12, 0⟩ "2021-01-01" "2021-12"
      true "submittedDate:[202101010000 TO 202112312359]" (by decide)).2.1 _ (by decide)⟩

/-- The code's category-name computation agrees with the spec's
description; in particular the inner `if not cat_name` guard is dead for
truthy input. -/
theorem catDirName_eq_spec (cat : Option String) :
    catDirName cat = specCategoryDirName cat := by
  cases cat with
  | none => rfl
  | some c =>
    obtain ⟨l⟩ := c
    by_cases hl : l = []
    · subst hl; rfl
    · have hne : ¬(String.mk l = "") := fun h => hl (congrArg String.data h)
      have hne2 :
          ¬(String.mk (List.map pyUpperChar
              (List.map (fun ch => if ch = '.' then '_' else ch) l)) = "") := by
        intro h
        have h2 : List.map pyUpperChar
            (List.map (fun ch => if ch = '.' then '_' else ch) l) = [] :=
          congrArg String.data h
        simp only [List.map_eq_nil_iff] at h2
        exact hl h2
      simp only [catDirName, specCategoryDirName, ne_eq, hne, not_false_eq_true,
        if_true, hne2, if_false, ite_false, ite_true]
      exact congrArg String.mk (by rw [List.map_map]; rfl)

/-- C10: for every record entering the download pipeline, the category
subdirectory name is the primary category (in the base client: primary
category falling back to venue under Python truthiness) with `'.'`
replaced by `'_'` and uppercased — `"cs.LG"` gives `"CS_LG"` — and the
literal `"UNKNOWN"` when the field is absent or empty. -/
theorem C10_category_dir_name (cat primary venue : Option String) :
    catDirName cat = specCategoryDirName cat
  ∧ (pyTruthyStr primary = true → catDirNameBase primary venue = specCategoryDirName primary)
  ∧ (pyTruthyStr primary = false → catDirNameBase primary venue = specCategoryDirName venue)
  ∧ catDirName (some "cs.LG") = "CS_LG"
  ∧ catDirName none = "UNKNOWN"
  ∧ catDirName (some "") = "UNKNOWN" := by
  refine ⟨catDirName_eq_spec cat, ?_, ?_, rfl, rfl, rfl⟩
  · intro h
    simp only [catDirNameBase, h, if_true]
    exact catDirName_eq_spec primary
  · intro h
    simp only [catDirNameBase, h, if_false, Bool.false_eq_true]
    exact catDirName_eq_spec venue

/-- Witness for C10 at concrete categories: `cs.LG` is truthy and wins
over the venue; an absent primary category falls back to the venue. -/
theorem C10_witness :
    pyTruthyStr (some "cs.LG") = true ∧
    catDirNameBase (some "cs.LG") (some "NeurIPS") = specCategoryDirName (some "cs.LG") ∧
    pyTruthyStr (none : Option String) = false ∧
    catDirNameBase none (some "NeurIPS") = specCategoryDirName (some "NeurIPS") :=
  ⟨rfl,
   (C10_category_dir_name none (some "cs.LG") (some "NeurIPS")).2.1 rfl,
   rfl,
   (C10_category_dir_name none none (some "NeurIPS")).2.2.1 rfl⟩

/-- C3 counterexample: the claim says a non-2xx HTTP status is never
retried and is surfaced immediately as an API error, for *all* clients.
In the Semantic Scholar client `raise_for_status` raises
`requests.HTTPError`, a `RequestException`, so an HTTP 500 on every
attempt is retried twice (backoff 1 then 2 seconds) and surfaced as the
re-raised `HTTPError`; the async base client retries any exception the
same way. -/
theorem C3_counterexample :
    ssRetryRequest (fun _ => SSOutcome.httpStatusError 500 "500 Server Error") =
      ⟨3, [1, 2], Except.error (PyErr.httpError 500 "500 Server Error")⟩ ∧
    (ssRetryRequest (fun _ => SSOutcome.httpStatusError 500 "500 Server Error")).sleeps ≠ [] ∧
    baseRetryRequest (fun _ => BaseOutcome.exc "HTTP 500") =
      ⟨3, [1, 2], Except.error (PyErr.genericException "HTTP 500")⟩ :=
  ⟨rfl, by decide, rfl⟩

/-- C3 amended: the *arXiv* client's search path retries only transport
failures (3 attempts, backoff 2^attempt = 1 then 2 seconds) and surfaces
a non-200 response immediately — one request, no sleeps — as
`ArxivAPIError(status, body)`; the Semantic Scholar client retries
HTTP-status failures exactly like transport failures (3 attempts,
backoff 1 then 2, last exception re-raised), and the async base client
retries every exception the same way. -/
theorem C3_amended_retry_policy :
    (∀ (out : Nat → ReqOutcome) (s : Nat) (b : String),
        out 0 = ReqOutcome.response s b → arxivHttpRetry out = ⟨1, [], Except.ok (s, b)⟩)
  ∧ (∀ {α : Type} (query : QueryInput) (st mr : Int) (out : Nat → ReqOutcome)
        (feedOf : String → FeedView α) (pf : α → Except String ArxivPaper)
        (v : String × Option String × Option String) (s : Nat) (b : String),
        searchValidate query st mr = Except.ok v →
        out 0 = ReqOutcome.response s b → s ≠ 200 →
        arxivSearch query st mr out feedOf pf =
          ⟨true, 1, [], Except.error (PyErr.arxivAPIError s b)⟩)
  ∧ (∀ (out : Nat → ReqOutcome) (m : String), (∀ i, out i = ReqOutcome.transportErr m) →
        arxivHttpRetry out = ⟨3, [1, 2], Except.error (PyErr.arxivNetworkError m)⟩)
  ∧ (∀ (out : Nat → SSOutcome) (st : Nat) (m : String),
        (∀ i, out i = SSOutcome.httpStatusError st m) →
        ssRetryRequest out = ⟨3, [1, 2], Except.error (PyErr.httpError st m)⟩)
  ∧ (∀ (out : Nat → BaseOutcome) (m : String), (∀ i, out i = BaseOutcome.exc m) →
        baseRetryRequest out = ⟨3, [1, 2], Except.error (PyErr.genericException m)⟩) := by
  refine ⟨?_, ?_, ?_, ?_, ?_⟩
  · intro out s b h
    simp [arxivHttpRetry, arxivRetryGo, h]
  · intro α query st mr out feedOf pf v s b hv hout hs
    obtain ⟨sq, sb, so⟩ := v
    simp [arxivSearch, hv, arxivHttpRetry, arxivRetryGo, hout, hs]
  · intro out m h
    simp [arxivHttpRetry, arxivRetryGo, h 0, h 1, h 2]
  · intro out st m h
    simp [ssRetryRequest, ssRetryGo, h 0, h 1, h 2, ssOutcomeErr]
  · intro out m h
    simp [baseRetryRequest, baseRetryGo, h 0, h 1, h 2]

/-- Witness for C3 at concrete outcomes: a 404 response is surfaced by
the arXiv search after exactly one request with no backoff sleeps, while
an HTTP 429 makes the Semantic Scholar loop run all three attempts. -/
theorem C3_amended_witness :
    arxivHttpRetry (fun _ => ReqOutcome.response 404 "not found") =
      ⟨1, [], Except.ok (404, "not found")⟩ ∧
    arxivSearch (α := Unit) (QueryInput.raw "all:test") 0 10
        (fun _ => ReqOutcome.response 404 "not found")
        (fun _ => { entries := [] }) (fun _ => Except.error "e") =
      ⟨true, 1, [], Except.error (PyErr.arxivAPIError 404 "not found")⟩ ∧
    ssRetryRequest (fun _ => SSOutcome.httpStatusError 429 "rate limited") =
      ⟨3, [1, 2], Except.error (PyErr.httpError 429 "rate limited")⟩ :=
  ⟨C3_amended_retry_policy.1 _ 404 "not found" rfl,
   C3_amended_retry_policy.2.1 (QueryInput.raw "all:test") 0 10 _ _ _
     ("all:test", none, none) 404 "not found" rfl rfl (by decide),
   C3_amended_retry_policy.2.2.2.1 _ 429 "rate limited" (fun _ => rfl)⟩

/-- C7: `search` rejects a blank raw query, a negative `start`, a
negative `max_results` and a `max_results` above 2000 (with the cap in
the message) *before* any network activity: the result records zero HTTP
attempts, no backoff sleeps and no rate-limit application. -/
theorem C7_search_input_validation {α : Type} (s : String) (st mr : Int)
    (out : Nat → ReqOutcome) (feedOf : String → FeedView α)
    (pf : α → Except String ArxivPaper) :
    (pyStrip s = "" →
      arxivSearch (QueryInput.raw s) st mr out feedOf pf =
        ⟨false, 0, [], Except.error (PyErr.valueError "query string cannot be empty")⟩)
  ∧ (pyStrip s ≠ "" → st < 0 →
      arxivSearch (QueryInput.raw s) st mr out feedOf pf =
        ⟨false, 0, [], Except.error (PyErr.valueError "start must be >= 0")⟩)
  ∧ (pyStrip s ≠ "" → 0 ≤ st → mr < 0 →
      arxivSearch (QueryInput.raw s) st mr out feedOf pf =
        ⟨false, 0, [], Except.error (PyErr.valueError "max_results must be >= 0")⟩)
  ∧ (pyStrip s ≠ "" → 0 ≤ st → 2000 < mr →
      arxivSearch (QueryInput.raw s) st mr out feedOf pf =
        ⟨false, 0, [], Except.error (PyErr.valueError
            "max_results must be <= 2000 per request; page large sets in slices")⟩) := by
  refine ⟨?_, ?_, ?_, ?_⟩
  · intro h1
    simp [arxivSearch, searchValidate, h1]
  · intro h1 h2
    simp [arxivSearch, searchValidate, h1, h2]
  · intro h1 h2 h3
    have h2' : ¬st < 0 := not_lt.mpr h2
    simp [arxivSearch, searchValidate, h1, h2', h3]
  · intro h1 h2 h3
    have h2' : ¬st < 0 := not_lt.mpr h2
    have h3' : ¬mr < 0 := by omega
    simp [arxivSearch, searchValidate, h1, h2', h3', h3]

/-- Witness for C7: a whitespace-only query, `start = -1` and
`max_results = 3000` each fail with zero requests issued. -/
theorem C7_witness :
    pyStrip "   " = "" ∧
    arxivSearch (QueryInput.raw "   ") 0 10 outOk feedNone pfFail =
      ⟨false, 0, [], Except.error (PyErr.valueError "query string cannot be empty")⟩ ∧
    arxivSearch (QueryInput.raw "all:test") (-1) 10 outOk feedNone pfFail =
      ⟨false, 0, [], Except.error (PyErr.valueError "start must be >= 0")⟩ ∧
    arxivSearch (QueryInput.raw "all:test") 0 3000 outOk feedNone pfFail =
      ⟨false, 0, [], Except.error (PyErr.valueError
          "max_results must be <= 2000 per request; page large sets in slices")⟩ :=
  ⟨rfl,
   (C7_search_input_validation "   " 0 10 outOk feedNone pfFail).1 rfl,
   (C7_search_input_validation "all:test" (-1) 10 outOk feedNone pfFail).2.1
     (by decide) (by decide),
   (C7_search_input_validation "all:test" 0 3000 outOk feedNone pfFail).2.2.2
     (by decide) (by decide) (by decide)⟩

/-! ### Entry-collection lemmas for the all-or-nothing parse contract -/

theorem collect_errs_nil_iff {α : Type} (pf : α → Except String ArxivPaper)
    (k : Nat) (xs : List α) :
    (collectEntries pf k xs).2 = [] ↔ ∀ x ∈ xs, exIsOk (pf x) = true := by
  induction xs generalizing k with
  | nil => simp [collectEntries]
  | cons x xs ih =>
    simp only [collectEntries]
    cases hx : pf x with
    | ok p => simp [hx, ih (k + 1), exIsOk]
    | error m => simp [hx, exIsOk]

theorem collect_length_eq {α : Type} (pf : α → Except String ArxivPaper)
    (k : Nat) (xs : List α) (h : (collectEntries pf k xs).2 = []) :
    (collectEntries pf k xs).1.length = xs.length := by
  induction xs generalizing k with
  | nil => simp [collectEntries]
  | cons x xs ih =>
    simp only [collectEntries] at h ⊢
    cases hx : pf x with
    | ok p =>
      simp only [hx] at h ⊢
      simp [ih (k + 1) h]
    | error m => simp [hx] at h

theorem collect_pointwise {α : Type} (pf : α → Except String ArxivPaper)
    (k : Nat) (xs : List α) (h : (collectEntries pf k xs).2 = []) :
    ∀ (j : Nat) (hj : j < xs.length) (hj' : j < (collectEntries pf k xs).1.length),
      pf (xs.get ⟨j, hj⟩) = Except.ok ((collectEntries pf k xs).1.get ⟨j, hj'⟩) := by
  induction xs generalizing k with
  | nil => intro j hj; simp at hj
  | cons x xs ih =>
    intro j hj hj'
    revert h hj'
    simp only [collectEntries]
    cases hx : pf x with
    | ok p =>
      intro h hj'
      cases j with
      | zero => simpa using hx
      | succ j =>
        exact ih (k + 1) h j (by simpa using hj) (by simpa using hj')
    | error m =>
      intro h hj'
      simp at h

theorem collect_errs_length {α : Type} (pf : α → Except String ArxivPaper)
    (k : Nat) (xs : List α) :
    (collectEntries pf k xs).2.length = countFailures pf xs := by
  induction xs generalizing k with
  | nil => simp [collectEntries, countFailures]
  | cons x xs ih =>
    simp only [collectEntries, countFailures, List.filter]
    cases hx : pf x with
    | ok p =>
      simp only [hx, exIsOk, Bool.not_true]
      simpa [countFailures] using ih (k + 1)
    | error m =>
      simp only [hx, exIsOk, Bool.not_false, List.length_cons]
      simpa [countFailures] using ih (k + 1)

theorem collect_first_err {α : Type} (pf : α → Except String ArxivPaper)
    (xs : List α) (k i : Nat) (m : String) (rest : List (Nat × String))
    (h : (collectEntries pf k xs).2 = (i, m) :: rest) :
    k ≤ i ∧ ∃ hi : i - k < xs.length,
      pf (xs.get ⟨i - k, hi⟩) = Except.error m ∧
      ∀ (j : Nat) (hj : j < xs.length), j < i - k → exIsOk (pf (xs.get ⟨j, hj⟩)) = true := by
  induction xs generalizing k with
  | nil => simp [collectEntries] at h
  | cons x xs ih =>
    simp only [collectEntries] at h
    cases hx : pf x with
    | ok p =>
      simp only [hx] at h
      obtain ⟨hk, hi, herr, hfirst⟩ := ih (k + 1) h
      have hk' : k ≤ i := le_trans (Nat.le_succ k) hk
      have hsub : i - k = (i - (k + 1)) + 1 := by omega
      refine ⟨hk', ?_⟩
      rw [hsub]
      refine ⟨by simpa using hi, ?_, ?_⟩
      · simpa using herr
      · intro j hj hlt
        cases j with
        | zero => simpa [exIsOk] using congrArg exIsOk hx
        | succ j =>
          exact hfirst j (by simpa using hj) (by omega)
    | error m' =>
      simp only [hx, List.cons.injEq, Prod.mk.injEq] at h
      obtain ⟨⟨hki, hmm'⟩, -⟩ := h
      cases hki
      cases hmm'
      refine ⟨le_refl _, ?_⟩
      rw [Nat.sub_self]
      exact ⟨by simp, by simpa using hx, fun j hj hlt => absurd hlt (by omega)⟩

/-- C2: under a successful request (status 200), the parse step is
all-or-nothing: if any entry fails validation the whole call raises an
`ArxivParseError` whose message carries the failure count and the index
and message of the first (least-index) failure — no `ResultSet` is
produced even though other entries parsed; if every entry validates, the
call returns a `ResultSet` with exactly one record per feed entry in
feed order. -/
theorem C2_parse_all_or_nothing {α : Type} (query : QueryInput) (st mr : Int)
    (out : Nat → ReqOutcome) (feedOf : String → FeedView α)
    (pf : α → Except String ArxivPaper)
    (v : String × Option String × Option String) (body : String)
    (hv : searchValidate query st mr = Except.ok v)
    (hout : out 0 = ReqOutcome.response 200 body) :
    ((collectEntries pf 0 (feedOf body).entries).2 = [] →
      (arxivSearch query st mr out feedOf pf).result =
        Except.ok { entries := (collectEntries pf 0 (feedOf body).entries).1,
                    total_results := (feedOf body).totalResults,
                    start_index := (feedOf body).startIndex,
                    items_per_page := (feedOf body).itemsPerPage,
                    query := some v.1, sortBy := v.2.1, sortOrder := v.2.2 } ∧
      (collectEntries pf 0 (feedOf body).entries).1.length = (feedOf body).entries.length ∧
      ∀ (j : Nat) (hj : j < (feedOf body).entries.length)
        (hj' : j < (collectEntries pf 0 (feedOf body).entries).1.length),
        pf ((feedOf body).entries.get ⟨j, hj⟩) =
          Except.ok ((collectEntries pf 0 (feedOf body).entries).1.get ⟨j, hj'⟩))
  ∧ (∀ (i : Nat) (m : String) (rest : List (Nat × String)),
      (collectEntries pf 0 (feedOf body).entries).2 = (i, m) :: rest →
      (arxivSearch query st mr out feedOf pf).result =
        Except.error (PyErr.arxivParseError
          (parseErrMsg (countFailures pf (feedOf body).entries) i m)) ∧
      ∃ hi : i < (feedOf body).entries.length,
        pf ((feedOf body).entries.get ⟨i, hi⟩) = Except.error m ∧
        ∀ (j : Nat) (hj : j < (feedOf body).entries.length), j < i →
          exIsOk (pf ((feedOf body).entries.get ⟨j, hj⟩)) = true) := by
  obtain ⟨sq, sb, so⟩ := v
  have hsearch : arxivSearch query st mr out feedOf pf =
      ⟨true, 1, [], parsePhase pf (feedOf body) sq sb so⟩ := by
    simp [arxivSearch, hv, arxivHttpRetry, arxivRetryGo, hout]
  constructor
  · intro h
    refine ⟨?_, collect_length_eq pf 0 _ h, collect_pointwise pf 0 _ h⟩
    rw [hsearch]
    simp [parsePhase, h]
  · intro i m rest h
    obtain ⟨-, hi, herr, hfirst⟩ := collect_first_err pf (feedOf body).entries 0 i m rest h
    constructor
    · rw [hsearch]
      simp only [parsePhase, h]
      rw [← collect_errs_length pf 0 (feedOf body).entries, h]
    · exact ⟨by simpa using hi, by simpa using herr,
        fun j hj hlt => by simpa using hfirst j hj (by omega)⟩

/-- Witness for C2: with one malformed entry among four, the call fails
with count 1 and first index 1 even though the other three entries
parse; with all entries well-formed, the call returns all four records. -/
theorem C2_witness :
    (arxivSearch (QueryInput.raw "all:test") 0 10
        (fun _ => ReqOutcome.response 200 "BODY") feedFour pfBadAt1).result =
      Except.error (PyErr.arxivParseError
        "1 entries failed to parse (first at index 1): bad entry") ∧
    (arxivSearch (QueryInput.raw "all:test") 0 10
        (fun _ => ReqOutcome.response 200 "BODY") feedFour pfAllOk).result =
      Except.ok { entries := [pEntry, pEntry, pEntry, pEntry],
                  query := some "all:test" } :=
  ⟨((C2_parse_all_or_nothing (QueryInput.raw "all:test") 0 10
        (fun _ => ReqOutcome.response 200 "BODY") feedFour pfBadAt1
        ("all:test", none, none) "BODY" (by decide) rfl).2 1 "bad entry" []
        (by decide)).1,
   ((C2_parse_all_or_nothing (QueryInput.raw "all:test") 0 10
        (fun _ => ReqOutcome.response 200 "BODY") feedFour pfAllOk
        ("all:test", none, none) "BODY" (by decide) rfl).1 (by decide)).1⟩

/-! ### Lemmas about `_parse_date` and `strftime` lengths (claim C5) -/

theorem strptimeWith_valid (paths : List (PyDateTime × List Char)) (dt : PyDateTime)
    (h : strptimeWith paths = some dt) : validDate dt = true := by
  cases paths with
  | nil => simp [strptimeWith] at h
  | cons p rest =>
    simp only [strptimeWith] at h
    by_cases hc : p.2 = [] ∧ validDate p.1 = true
    · obtain ⟨h1, h2⟩ := hc
      simp only [h1, h2, Bool.and_self, if_true] at h
      obtain rfl : p.1 = dt := by
        obtain ⟨a, b⟩ := p
        simpa using h
      exact h2
    · exfalso
      rcases p with ⟨a, b⟩
      by_cases hb : b = []
      · subst hb
        simp only [if_true] at h
        rcases hv : validDate a with _ | _
        · simp [hv] at h
        · exact hc ⟨rfl, hv⟩
      · simp [hb] at h

theorem firstSome_mem (l : List (Option PyDateTime)) (v : PyDateTime)
    (h : firstSome l = some v) : some v ∈ l := by
  induction l with
  | nil => simp [firstSome] at h
  | cons o rest ih =>
    cases o with
    | some x =>
      simp only [firstSome, Option.some.injEq] at h
      subst h
      exact List.mem_cons_self _ _
    | none =>
      simp only [firstSome] at h
      exact List.mem_cons_of_mem _ (ih h)

theorem parseDate_valid (s : String) (dt : PyDateTime)
    (h : parseDate s = Except.ok dt) : validDate dt = true := by
  simp only [parseDate] at h
  rcases ht : tryFormats s.data with _ | dt'
  · simp [ht] at h
  · rw [ht] at h
    obtain rfl : dt' = dt := by simpa using h
    have hmem := firstSome_mem _ _ ht
    simp only [formatsList, List.mem_cons, List.not_mem_nil, or_false] at hmem
    rcases hmem with h' | h' | h' | h' | h' | h' | h' | h' <;>
      exact strptimeWith_valid _ _ h'.symm

/-- Lower-bound companion to Mathlib's `Nat.repr_length`: the digit
buffer only grows. -/
theorem toDigitsCore_len_mono (b : Nat) :
    ∀ (fuel n : Nat) (ds : List Char),
      ds.length ≤ (Nat.toDigitsCore b fuel n ds).length := by
  intro fuel
  induction fuel with
  | zero => intro n ds; simp [Nat.toDigitsCore]
  | succ f ih =>
    intro n ds
    simp only [Nat.toDigitsCore]
    by_cases h : n / b = 0
    · simp [h]
    · simp only [h, if_false]
      calc ds.length ≤ (Nat.digitChar (n % b) :: ds).length := by simp
        _ ≤ _ := ih (n / b) (Nat.digitChar (n % b) :: ds)

/-- A number `≥ 10^e` occupies at least `e+1` characters. -/
theorem toDigitsCore_len_lb :
    ∀ (e fuel n : Nat) (ds : List Char), 10 ^ e ≤ n → e < fuel →
      e + 1 + ds.length ≤ (Nat.toDigitsCore 10 fuel n ds).length := by
  intro e
  induction e with
  | zero =>
    intro fuel n ds hn hf
    obtain ⟨f, rfl⟩ : ∃ f, fuel = f + 1 := ⟨fuel - 1, by omega⟩
    simp only [Nat.toDigitsCore]
    by_cases h : n / 10 = 0
    · simp only [h, if_true, List.length_cons]
      omega
    · simp only [h, if_false]
      have := toDigitsCore_len_mono 10 f (n / 10) (Nat.digitChar (n % 10) :: ds)
      simp only [List.length_cons] at this
      omega
  | succ e ih =>
    intro fuel n ds hn hf
    obtain ⟨f, rfl⟩ : ∃ f, fuel = f + 1 := ⟨fuel - 1, by omega⟩
    have hdiv : 10 ^ e ≤ n / 10 := by
      rw [Nat.le_div_iff_mul_le (by norm_num)]
      calc 10 ^ e * 10 = 10 ^ (e + 1) := by ring
        _ ≤ n := hn
    have hne : ¬(n / 10 = 0) := by
      intro h0
      rw [h0] at hdiv
      have hp : 0 < 10 ^ e := Nat.pow_pos (by norm_num)
      omega
    simp only [Nat.toDigitsCore, hne, if_false]
    have := ih f (n / 10) (Nat.digitChar (n % 10) :: ds) hdiv (by omega)
    simp only [List.length_cons] at this
    omega

/-- Exact decimal length of a four-digit year. -/
theorem repr_len_four (n : Nat) (h1 : 1000 ≤ n) (h2 : n ≤ 9999) :
    (Nat.repr n).length = 4 := by
  refine le_antisymm (Nat.repr_length n 4 (by norm_num) (by omega)) ?_
  show 4 ≤ (Nat.repr n).length
  have hlb := toDigitsCore_len_lb 3 (n + 1) n [] (by norm_num; omega) (by omega)
  simpa [Nat.repr, Nat.toDigits, List.asString, String.length] using hlb

/-- A value below 100 pads to exactly two characters. -/
theorem padNum2_len (k : Nat) (h : k ≤ 99) : (padNum 2 k).length = 2 := by
  have hle : (Nat.repr k).length ≤ 2 := Nat.repr_length k 2 (by norm_num) (by omega)
  have h1 : 1 ≤ (Nat.repr k).length := by
    by_cases hk : k = 0
    · subst hk; decide
    · have := toDigitsCore_len_lb 0 (k + 1) k []
        (by simpa using Nat.one_le_iff_ne_zero.mpr hk) (by omega)
      simpa [Nat.repr, Nat.toDigits, List.asString, String.length] using this
  show (String.mk (List.replicate (2 - (Nat.repr k).length) '0') ++ Nat.repr k).length = 2
  rw [String.length_append]
  show (List.replicate (2 - (Nat.repr k).length) '0').length + (Nat.repr k).length = 2
  rw [List.length_replicate]
  omega

/-- The rendered `strftime("%Y%m%d%H%M")` string has 12 characters
whenever the year has four decimal digits. -/
theorem fmt12_length (dt : PyDateTime) (hy1 : 1000 ≤ dt.year) (hy2 : dt.year ≤ 9999)
    (hm : dt.month ≤ 99) (hd : dt.day ≤ 99) (hh : dt.hour ≤ 99) (hmin : dt.minute ≤ 99) :
    (fmt12 dt).length = 12 := by
  show (toString dt.year ++ padNum 2 dt.month ++ padNum 2 dt.day ++
    padNum 2 dt.hour ++ padNum 2 dt.minute).length = 12
  rw [String.length_append, String.length_append, String.length_append,
    String.length_append]
  rw [padNum2_len _ hm, padNum2_len _ hd, padNum2_len _ hh, padNum2_len _ hmin]
  have : (toString dt.year).length = 4 := repr_len_four dt.year hy1 hy2
  omega

theorem list_len4 {α : Type} : ∀ (l : List α), l.length = 4 → ∃ a b c d, l = [a, b, c, d]
  | [], h => absurd h (by simp)
  | [_], h => absurd h (by simp)
  | [_, _], h => absurd h (by simp)
  | [_, _, _], h => absurd h (by simp)
  | [a, b, c, d], _ => ⟨a, b, c, d, rfl⟩
  | _ :: _ :: _ :: _ :: _ :: _ :: _, h => absurd h (by simp)

/-- Membership in a conditional singleton forces the element. -/
theorem mem_ite_singleton {α : Type} {C : Prop} [Decidable C] {x p : α}
    (h : p ∈ (if C then [x] else [])) : p = x := by
  split at h
  · simpa using h
  · simp at h

/-- Splitting membership in a three-part append. -/
theorem mem_three_append {α : Type} {p : α} {l1 l2 l3 : List α}
    (h : p ∈ l1 ++ l2 ++ l3) : p ∈ l1 ∨ p ∈ l2 ∨ p ∈ l3 := by
  rcases List.mem_append.mp h with h' | h'
  · rcases List.mem_append.mp h' with h'' | h''
    · exact Or.inl h''
    · exact Or.inr (Or.inl h'')
  · exact Or.inr (Or.inr h')

/-- Every alternative of the `%m` regex consumes one or two characters. -/
theorem reMonth_rest (s : List Char) : ∀ p ∈ reMonth s, p.2 = s.drop 1 ∨ p.2 = s.drop 2 := by
  intro p hp
  rcases s with _ | ⟨c1, _ | ⟨c2, r⟩⟩
  · exact absurd hp (by simp [reMonth])
  · rcases mem_three_append hp with hp | hp | hp
    · exact absurd hp (List.not_mem_nil p)
    · exact absurd hp (List.not_mem_nil p)
    · rw [mem_ite_singleton hp]; simp
  · rcases mem_three_append hp with hp | hp | hp
    · rw [mem_ite_singleton hp]; simp
    · rw [mem_ite_singleton hp]; simp
    · rw [mem_ite_singleton hp]; simp

/-- A decimal digit is not `'-'`. -/
theorem digit_ne_dash (y : Char) (hy : y.isDigit = true) : ¬(y = '-') := by
  intro h
  rw [h] at hy
  exact absurd hy (by decide)

/-- `_parse_date` on a bare year (regex `^\d{4}$`): only the `%Y` format
can succeed, so the parsed value is January 1st at midnight. -/
theorem parseDate_year_only (e : String) (de : PyDateTime)
    (hre : isYearOnlyStr e = true) (hp : parseDate e = Except.ok de) :
    de.month = 1 ∧ de.day = 1 ∧ de.hour = 0 ∧ de.minute = 0 := by
  simp only [isYearOnlyStr, Bool.and_eq_true, decide_eq_true_eq,
    List.all_eq_true] at hre
  obtain ⟨hlen, hdig⟩ := hre
  obtain ⟨a, b, c, d, hl⟩ := list_len4 _ hlen
  have ha : a.isDigit = true := hdig a (by rw [hl]; simp)
  have hb : b.isDigit = true := hdig b (by rw [hl]; simp)
  have hc : c.isDigit = true := hdig c (by rw [hl]; simp)
  have hd : d.isDigit = true := hdig d (by rw [hl]; simp)
  simp only [parseDate] at hp
  rw [hl] at hp
  have hy : reYear [a, b, c, d] =
      [(((digitVal a * 10 + digitVal b) * 10 + digitVal c) * 10 + digitVal d, [])] := by
    simp [reYear, ha, hb, hc, hd]
  have h1 : fmtDate (some '-') [a, b, c, d] = [] := by
    simp [fmtDate, hy, reSep, reLit]
  have h2 : fmtDate (some '/') [a, b, c, d] = [] := by
    simp [fmtDate, hy, reSep, reLit]
  have h3 : fmtDate none [a, b, c, d] = [] := by
    simp [fmtDate, hy, reSep, reMonth]
  have h7 : fmtYearMonth [a, b, c, d] = [] := by
    simp [fmtYearMonth, hy, reLit]
  simp only [tryFormats, formatsList, fmtDateTime, fmtDateOnly, fmtYearOnly,
    h1, h2, h3, h7, hy, List.flatMap_nil, List.map_nil, List.map_cons,
    strptimeWith, firstSome] at hp
  set dt0 : PyDateTime :=
    ⟨((digitVal a * 10 + digitVal b) * 10 + digitVal c) * 10 + digitVal d, 1, 1, 0, 0⟩
    with hdt0
  by_cases hv : validDate dt0 = true
  · rw [if_pos (by simp [hv])] at hp
    obtain rfl : dt0 = de := by simpa [firstSome] using hp
    simp [hdt0]
  · rw [if_neg (by simp [hv])] at hp
    simp [firstSome] at hp

/-- `_parse_date` on a year-month string (regex `^\d{4}-\d{2}$`): only
the `%Y-%m` format can succeed, so the parsed value has day 1 and
midnight time. -/
theorem parseDate_year_month (e : String) (de : PyDateTime)
    (hre : isYearMonthStr e = true) (hp : parseDate e = Except.ok de) :
    de.day = 1 ∧ de.hour = 0 ∧ de.minute = 0 := by
  simp only [isYearMonthStr] at hre
  split at hre
  case h_2 => exact absurd hre (by simp)
  rename_i a b c d w x y heq
  simp only [Bool.and_eq_true, decide_eq_true_eq] at hre
  obtain ⟨⟨⟨⟨⟨⟨ha, hb⟩, hc⟩, hd⟩, hw⟩, hx⟩, hy⟩ := hre
  subst hw
  simp only [parseDate] at hp
  rw [heq] at hp
  have hyr : reYear [a, b, c, d, '-', x, y] =
      [(((digitVal a * 10 + digitVal b) * 10 + digitVal c) * 10 + digitVal d,
        ['-', x, y])] := by
    simp [reYear, ha, hb, hc, hd]
  have hmsub : ∀ p ∈ reMonth [x, y], reLit '-' p.2 = [] := by
    intro p hp'
    rcases reMonth_rest [x, y] p hp' with h | h <;> rw [h]
    · simp [reLit, digit_ne_dash y hy]
    · simp [reLit]
  have hsep : reSep (some '-') ['-', x, y] = [[x, y]] := by simp [reSep, reLit]
  have hsep2 : ∀ ms ∈ reMonth [x, y], reSep (some '-') ms.2 = [] := by
    intro ms hms
    simpa [reSep] using hmsub ms hms
  have h1 : fmtDate (some '-') [a, b, c, d, '-', x, y] = [] := by
    simp only [fmtDate, hyr, List.flatMap_cons, List.flatMap_nil, List.append_nil, hsep]
    rw [List.flatMap_eq_nil_iff]
    intro ms hms
    rw [hsep2 ms hms]
    simp
  have h2 : fmtDate (some '/') [a, b, c, d, '-', x, y] = [] := by
    simp [fmtDate, hyr, reSep, reLit]
  have h3 : fmtDate none [a, b, c, d, '-', x, y] = [] := by
    simp [fmtDate, hyr, reSep, reMonth]
  have h7 : fmtYearMonth [a, b, c, d, '-', x, y] =
      (reMonth [x, y]).map (fun ms =>
        (⟨((digitVal a * 10 + digitVal b) * 10 + digitVal c) * 10 + digitVal d,
          ms.1, 1, 0, 0⟩, ms.2)) := by
    simp [fmtYearMonth, hyr, reLit]
  have h8 : strptimeWith (fmtYearOnly [a, b, c, d, '-', x, y]) = none := by
    simp [fmtYearOnly, hyr, strptimeWith]
  simp only [tryFormats, formatsList, fmtDateTime, fmtDateOnly, h1, h2, h3, h7, h8,
    List.flatMap_nil, List.map_nil, firstSome] at hp
  cases hrm : reMonth [x, y] with
  | nil =>
    rw [hrm] at hp
    simp [strptimeWith, firstSome] at hp
  | cons ms tl =>
    rw [hrm] at hp
    simp only [List.map_cons, strptimeWith] at hp
    set dt0 : PyDateTime :=
      ⟨((digitVal a * 10 + digitVal b) * 10 + digitVal c) * 10 + digitVal d,
        ms.1, 1, 0, 0⟩ with hdt0
    by_cases hcond : (decide (ms.2 = []) && validDate dt0) = true
    · rw [if_pos hcond] at hp
      obtain rfl : dt0 = de := by simpa [firstSome] using hp
      simp [hdt0]
    · rw [if_neg hcond] at hp
      simp [firstSome] at hp

/-- A coarse-grained end date (`^\d{4}(-\d{2})?$`) always parses to
midnight, so the guard in the `end_inclusive` expansion is redundant. -/
theorem parseDate_coarse_time (e : String) (de : PyDateTime)
    (hre : (isYearOnlyStr e || isYearMonthStr e) = true)
    (hp : parseDate e = Except.ok de) : de.hour = 0 ∧ de.minute = 0 := by
  have hre' : isYearOnlyStr e = true ∨ isYearMonthStr e = true := by simpa using hre
  rcases hre' with h | h
  · obtain ⟨-, -, h1, h2⟩ := parseDate_year_only e de h hp
    exact ⟨h1, h2⟩
  · obtain ⟨-, h1, h2⟩ := parseDate_year_month e de h hp
    exact ⟨h1, h2⟩

theorem yearMonth_not_yearOnly (e : String) (h : isYearMonthStr e = true) :
    isYearOnlyStr e = false := by
  simp only [isYearMonthStr] at h
  split at h
  · rename_i a b c d w x y heq
    simp [isYearOnlyStr, heq]
  · exact absurd h (by simp)

theorem daysInMonth_le31 (y m : Nat) : daysInMonth y m ≤ 31 := by
  simp only [daysInMonth]
  split_ifs <;> omega

/-- The expanded end datetime is one of three explicit values. -/
theorem expand_cases (eStr : String) (edt : PyDateTime) (incl : Bool) :
    dateRangeEndExpand eStr edt incl = edt ∨
    dateRangeEndExpand eStr edt incl =
      { edt with month := 12, day := 31, hour := 23, minute := 59 } ∨
    dateRangeEndExpand eStr edt incl =
      { edt with day := daysInMonth edt.year edt.month, hour := 23, minute := 59 } := by
  simp only [dateRangeEndExpand]
  split_ifs <;> simp

/-- Field bounds of the expanded end datetime. -/
theorem expand_bounds (eStr : String) (edt : PyDateTime) (incl : Bool)
    (hv : validDate edt = true) :
    (dateRangeEndExpand eStr edt incl).year = edt.year ∧
    (dateRangeEndExpand eStr edt incl).month ≤ 99 ∧
    (dateRangeEndExpand eStr edt incl).day ≤ 99 ∧
    (dateRangeEndExpand eStr edt incl).hour ≤ 99 ∧
    (dateRangeEndExpand eStr edt incl).minute ≤ 99 := by
  simp only [validDate, Bool.and_eq_true, decide_eq_true_eq] at hv
  obtain ⟨⟨⟨⟨⟨⟨⟨hy1, hy2⟩, hm1⟩, hm2⟩, hd1⟩, hd2⟩, hh⟩, hmin⟩ := hv
  have hdle : edt.day ≤ 31 := le_trans hd2 (daysInMonth_le31 _ _)
  rcases expand_cases eStr edt incl with hE | hE | hE <;> rw [hE]
  · exact ⟨rfl, by omega, by omega, by omega, by omega⟩
  · exact ⟨rfl, by show (12 : Nat) ≤ 99; norm_num, by show (31 : Nat) ≤ 99; norm_num,
      by show (23 : Nat) ≤ 99; norm_num, by show (59 : Nat) ≤ 99; norm_num⟩
  · exact ⟨rfl, by show edt.month ≤ 99; omega,
      by show daysInMonth edt.year edt.month ≤ 99;
         exact le_trans (daysInMonth_le31 _ _) (by norm_num),
      by show (23 : Nat) ≤ 99; norm_num, by show (59 : Nat) ≤ 99; norm_num⟩

/-- C5 (amended): for any two date strings that parse, `date_range`
appends exactly one `submittedDate:[S TO E]` token whose endpoints are
rendered by `strftime("%Y%m%d%H%M")`; with `end_inclusive` set, a bare
year expands to Dec 31 23:59 and a year-month to its last calendar day
23:59; a normalized start after the normalized end raises the ordering
error and appends nothing.  The rendered endpoints have exactly 12
characters whenever the parsed year is at least 1000 (the original
claim's unconditional "12-digit" fails below year 1000, where `%Y` does
not zero-pad). -/
theorem C5_date_range_token (q : QueryBuilder) (s e : String) (incl : Bool)
    (sdt edt : PyDateTime)
    (hs : parseDate s = Except.ok sdt) (he : parseDate e = Except.ok edt) :
    (dtLtB (dateRangeEndExpand e edt incl) sdt = true →
      q.date_range s e incl =
        Except.error (PyErr.valueError "start date must be <= end date"))
  ∧ (dtLtB (dateRangeEndExpand e edt incl) sdt = false →
      q.date_range s e incl = Except.ok
        { q with
          parts := q.parts ++
            ["submittedDate:[" ++ fmt12 sdt ++ " TO " ++
              fmt12 (dateRangeEndExpand e edt incl) ++ "]"],
          date_range_used := true })
  ∧ (incl = true → isYearOnlyStr e = true →
      dateRangeEndExpand e edt incl =
        { edt with month := 12, day := 31, hour := 23, minute := 59 })
  ∧ (incl = true → isYearMonthStr e = true →
      dateRangeEndExpand e edt incl =
        { edt with day := daysInMonth edt.year edt.month, hour := 23, minute := 59 })
  ∧ (1000 ≤ sdt.year → (fmt12 sdt).length = 12)
  ∧ (1000 ≤ edt.year → (fmt12 (dateRangeEndExpand e edt incl)).length = 12) := by
  refine ⟨?_, ?_, ?_, ?_, ?_, ?_⟩
  · intro h
    simp [QueryBuilder.date_range, dateRangeToken, hs, he, h, exceptMapErr]
  · intro h
    simp [QueryBuilder.date_range, dateRangeToken, hs, he, h, exceptMapOk]
  · intro hincl hyear
    have hcoarse := parseDate_coarse_time e edt (by simp [hyear]) he
    simp [dateRangeEndExpand, hincl, hcoarse.1, hcoarse.2, hyear]
  · intro hincl hym
    have hcoarse := parseDate_coarse_time e edt (by simp [hym]) he
    simp [dateRangeEndExpand, hincl, hcoarse.1, hcoarse.2, hym,
      yearMonth_not_yearOnly e hym]
  · intro hy
    have hv := parseDate_valid s sdt hs
    simp only [validDate, Bool.and_eq_true, decide_eq_true_eq] at hv
    obtain ⟨⟨⟨⟨⟨⟨⟨hy1, hy2⟩, hm1⟩, hm2⟩, hd1⟩, hd2⟩, hh⟩, hmin⟩ := hv
    have hdle : sdt.day ≤ 31 := le_trans hd2 (daysInMonth_le31 _ _)
    exact fmt12_length sdt hy hy2 (by omega) (by omega) (by omega) (by omega)
  · intro hy
    have hv := parseDate_valid e edt he
    obtain ⟨hyear, hm, hd, hh, hmin⟩ := expand_bounds e edt incl hv
    have hy2 : edt.year ≤ 9999 := by
      simp only [validDate, Bool.and_eq_true, decide_eq_true_eq] at hv
      exact hv.1.1.1.1.1.1.2
    exact fmt12_length _ (by omega) (by omega) hm hd hh hmin

/-- C5 counterexample: the original claim says the endpoints are always
12-digit strings, but `0999` parses (via `%Y`, four-digit regex) to year
999 and `%Y` renders it without zero padding, producing an 11-character
endpoint. -/
theorem C5_counterexample :
    parseDate "0999" = Except.ok ⟨999, 1, 1, 0, 0⟩ ∧
    dateRangeToken "0999" "0999" true =
      Except.ok "submittedDate:[99901010000 TO 99912312359]" ∧
    (fmt12 ⟨999, 1, 1, 0, 0⟩).length = 11 ∧
    ¬((fmt12 ⟨999, 1, 1, 0, 0⟩).length = 12) :=
  ⟨by decide, by decide, by decide, by decide⟩

/-- Witness for C5 at concrete inputs: 2021-01-01 to 2021-12 (inclusive)
appends one token with both endpoints expanded as claimed. -/
theorem C5_witness :
    parseDate "2021-01-01" = Except.ok ⟨2021, 1, 1, 0, 0⟩ ∧
    parseDate "2021-12" = Except.ok ⟨2021, 12, 1, 0, 0⟩ ∧
    dtLtB (dateRangeEndExpand "2021-12" ⟨2021, 12, 1, 0, 0⟩ true) ⟨2021, 1, 1, 0, 0⟩ = false ∧
    QueryBuilder.date_range {} "2021-01-01" "2021-12" true = Except.ok
      { ({} : QueryBuilder) with
        parts := ({} : QueryBuilder).parts ++
          ["submittedDate:[" ++ fmt12 ⟨2021, 1, 1, 0, 0⟩ ++ " TO " ++
            fmt12 (dateRangeEndExpand "2021-12" ⟨2021, 12, 1, 0, 0⟩ true) ++ "]"],
        date_range_used := true } ∧
    fmt12 ⟨2021, 1, 1, 0, 0⟩ = "202101010000" ∧
    fmt12 (dateRangeEndExpand "2021-12" ⟨2021, 12, 1, 0, 0⟩ true) = "202112312359" :=
  ⟨by decide, by decide, by decide,
   (C5_date_range_token {} "2021-01-01" "2021-12" true ⟨2021, 1, 1, 0, 0⟩
      ⟨2021, 12, 1, 0, 0⟩ (by decide) (by decide)).2.1 (by decide),
   by decide, by decide⟩

/-! ### Download idempotence (claim C8) -/

/-- C8 counterexample: the claim says a repeat download with
`overwrite=False` on an existing target returns the path *without
re-fetching over the network*.  The arXiv sync client issues
`session.get` at the start of every attempt, before the existence check:
its effect trace contains the HTTP GET even though the existing path is
returned and the filesystem is untouched. -/
theorem C8_counterexample :
    arxivDownloadPdf c8Paper "hub" false (fun _ => DlOutcome.response c8Resp) c8Fs =
      ⟨[DlEff.rateLimitEff, DlEff.httpGetEff c8Url, DlEff.mkdirEff "hub/CS_LG"], c8Fs,
        Except.ok "hub/CS_LG/test_paper-2101.00001v2.pdf"⟩ ∧
    DlEff.httpGetEff c8Url ∈
      (arxivDownloadPdf c8Paper "hub" false
        (fun _ => DlOutcome.response c8Resp) c8Fs).trace :=
  ⟨by decide, by decide⟩

/-- C8 (amended): with the target file already present and
`overwrite=False`, both download paths return the existing path and
leave the filesystem (file and sidecar) unchanged; the shared async base
client performs no network fetch at all (its trace is just the
`makedirs` of the category folder, for *every* possible
`_download_file` implementation), but the synchronous arXiv client
issues the HTTP GET before discovering the file exists, so one network
request still happens. -/
theorem C8_download_idempotence (paper : ArxivPaper) (dest url : String)
    (out : Nat → DlOutcome) (fs : Fs) (r : Resp)
    (hurl : paper.pdfUrl = Except.ok (some url)) (hne : url ≠ "")
    (hr : out 0 = DlOutcome.response r) (hst : r.status < 400)
    (hdest : fs.isDir dest = true)
    (hcat : fs.dirs.contains (pathJoin dest (catDirName paper.primary_category)) = true)
    (hfull : fs.existsPath
        (pathJoin (pathJoin dest (catDirName paper.primary_category))
          (dlFinalName paper r)) = true) :
    arxivDownloadPdf paper dest false out fs =
      ⟨[DlEff.rateLimitEff, DlEff.httpGetEff url,
        DlEff.mkdirEff (pathJoin dest (catDirName paper.primary_category))], fs,
        Except.ok (pathJoin (pathJoin dest (catDirName paper.primary_category))
          (dlFinalName paper r))⟩
  ∧ (∀ (p : BasePaper) (dest' : String)
        (dlFile : String → String → Fs → List DlEff × Fs × Except PyErr String)
        (fs' : Fs),
      pyTruthyStr p.pdfUrl = true →
      fs'.dirs.contains
        (pathJoin dest' (catDirNameBase p.primary_category p.venue)) = true →
      fs'.existsPath
        (pathJoin (pathJoin dest' (catDirNameBase p.primary_category p.venue))
          (baseFinalName p)) = true →
      baseDownloadPdf p dest' false dlFile fs' =
        ⟨[DlEff.mkdirEff (pathJoin dest' (catDirNameBase p.primary_category p.venue))],
          fs',
          Except.ok (pathJoin
            (pathJoin dest' (catDirNameBase p.primary_category p.venue))
            (baseFinalName p))⟩) := by
  constructor
  · have hpt : pyTruthyStr (some url) = true := by
      simp [pyTruthyStr, hne]
    have hmk : fs.mkdirp (pathJoin dest (catDirName paper.primary_category)) = fs := by
      simp only [Fs.mkdirp, hcat, if_true]
    have hnst : ¬(400 ≤ r.status) := by omega
    have hdest' : fs.dirs.contains dest = true := hdest
    simp only [arxivDownloadPdf, hurl, hpt, Bool.not_true, Bool.false_eq_true,
      if_false, Option.getD_some, arxivDlGo, hr, arxivDlAttempt, hnst, Fs.isDir,
      hdest', hmk, hfull, Bool.and_true, Bool.not_true, if_false, if_true]
    rfl
  · intro p dest' dlFile fs' hpurl hcat' hfull'
    have hmk : fs'.mkdirp (pathJoin dest' (catDirNameBase p.primary_category p.venue))
        = fs' := by
      simp only [Fs.mkdirp, hcat', if_true]
    simp only [baseDownloadPdf, baseResolvePdfUrl, hpurl, if_true, Bool.not_true,
      Bool.false_eq_true, if_false, hmk, hfull', Bool.and_true]
    rfl

/-- Witness for C8 at the concrete fixtures; the last conjuncts translate
the computed names into plain strings. -/
theorem C8_witness :
    c8Paper.pdfUrl = Except.ok (some c8Url) ∧
    arxivDownloadPdf c8Paper "hub" false (fun _ => DlOutcome.response c8Resp) c8Fs =
      ⟨[DlEff.rateLimitEff, DlEff.httpGetEff c8Url,
        DlEff.mkdirEff (pathJoin "hub" (catDirName c8Paper.primary_category))], c8Fs,
        Except.ok (pathJoin (pathJoin "hub" (catDirName c8Paper.primary_category))
          (dlFinalName c8Paper c8Resp))⟩ ∧
    baseDownloadPdf c8Base "hub" false
        (fun u d f => ([DlEff.httpGetEff u], f.write d (FileData.rawFile "again"),
          Except.ok d)) c8Fs =
      ⟨[DlEff.mkdirEff (pathJoin "hub" (catDirNameBase c8Base.primary_category c8Base.venue))],
        c8Fs,
        Except.ok (pathJoin
          (pathJoin "hub" (catDirNameBase c8Base.primary_category c8Base.venue))
          (baseFinalName c8Base))⟩ ∧
    pathJoin (pathJoin "hub" (catDirName c8Paper.primary_category))
      (dlFinalName c8Paper c8Resp) = "hub/CS_LG/test_paper-2101.00001v2.pdf" ∧
    pathJoin (pathJoin "hub" (catDirNameBase c8Base.primary_category c8Base.venue))
      (baseFinalName c8Base) = "hub/CS_LG/test_paper-2101.00001v2.pdf" :=
  ⟨by decide,
   (C8_download_idempotence c8Paper "hub" c8Url (fun _ => DlOutcome.response c8Resp)
      c8Fs c8Resp (by decide) (by decide) rfl (by decide) (by decide) (by decide)
      (by decide)).1,
   (C8_download_idempotence c8Paper "hub" c8Url (fun _ => DlOutcome.response c8Resp)
      c8Fs c8Resp (by decide) (by decide) rfl (by decide) (by decide) (by decide)
      (by decide)).2 c8Base "hub"
      (fun u d f => ([DlEff.httpGetEff u], f.write d (FileData.rawFile "again"),
        Except.ok d)) c8Fs (by decide) (by decide) (by decide),
   by decide, by decide⟩

/-! ### `_slugify` lemmas (claim C9) -/

theorem char_toNat_le {a b : Char} (h : a ≤ b) : a.toNat ≤ b.toNat := h

theorem dropWhile_length_le (p : Char → Bool) (l : List Char) :
    (l.dropWhile p).length ≤ l.length := by
  induction l with
  | nil => simp
  | cons a t ih =>
    rw [List.dropWhile_cons]
    split
    · exact le_trans ih (by simp)
    · simp

theorem noAdj_cons (c : Char) (l : List Char)
    (h : noAdjacentUnderscores (c :: l) = true) : noAdjacentUnderscores l = true := by
  cases l with
  | nil => rfl
  | cons c2 t =>
    simp only [noAdjacentUnderscores, Bool.and_eq_true] at h
    exact h.2

theorem noAdj_append_right (l1 l2 : List Char)
    (h : noAdjacentUnderscores (l1 ++ l2) = true) :
    noAdjacentUnderscores l2 = true := by
  induction l1 with
  | nil => simpa using h
  | cons c t ih => exact ih (noAdj_cons c _ (by simpa using h))

theorem noAdj_append_left (l1 l2 : List Char)
    (h : noAdjacentUnderscores (l1 ++ l2) = true) :
    noAdjacentUnderscores l1 = true := by
  induction l1 with
  | nil => rfl
  | cons c t ih =>
    cases t with
    | nil => rfl
    | cons c2 t2 =>
      simp only [List.cons_append, noAdjacentUnderscores, Bool.and_eq_true] at h ⊢
      exact ⟨h.1, ih h.2⟩

theorem lstrip_suffix (l : List Char) : ∃ t, t ++ lstripUnderscore l = l :=
  List.dropWhile_suffix _

theorem rstrip_prefix (l : List Char) : ∃ t, rstripUnderscore l ++ t = l := by
  obtain ⟨t, ht⟩ := List.dropWhile_suffix (l := l.reverse) (p := fun c => decide (c = '_'))
  refine ⟨t.reverse, ?_⟩
  have h2 := congrArg List.reverse ht
  simpa [rstripUnderscore] using h2

theorem mem_lstrip {l : List Char} {c : Char} (h : c ∈ lstripUnderscore l) : c ∈ l := by
  obtain ⟨t, ht⟩ := lstrip_suffix l
  rw [← ht]
  exact List.mem_append_right t h

theorem mem_rstrip {l : List Char} {c : Char} (h : c ∈ rstripUnderscore l) : c ∈ l := by
  obtain ⟨t, ht⟩ := rstrip_prefix l
  rw [← ht]
  exact List.mem_append_left t h

theorem noAdj_lstrip (l : List Char) (h : noAdjacentUnderscores l = true) :
    noAdjacentUnderscores (lstripUnderscore l) = true := by
  obtain ⟨t, ht⟩ := lstrip_suffix l
  exact noAdj_append_right t _ (by rw [ht]; exact h)

theorem noAdj_rstrip (l : List Char) (h : noAdjacentUnderscores l = true) :
    noAdjacentUnderscores (rstripUnderscore l) = true := by
  obtain ⟨t, ht⟩ := rstrip_prefix l
  exact noAdj_append_left _ t (by rw [ht]; exact h)

theorem noAdj_take (n : Nat) (l : List Char) (h : noAdjacentUnderscores l = true) :
    noAdjacentUnderscores (l.take n) = true :=
  noAdj_append_left _ _ (by rw [List.take_append_drop]; exact h)

theorem lstrip_head_ne (l : List Char) : (lstripUnderscore l).head? ≠ some '_' := by
  simp only [lstripUnderscore]
  induction l with
  | nil => simp
  | cons a t ih =>
    by_cases ha : a = '_'
    · simpa [List.dropWhile_cons, ha] using ih
    · simp [List.dropWhile_cons, ha]

theorem rstrip_last_ne (l : List Char) : (rstripUnderscore l).getLast? ≠ some '_' := by
  simp only [rstripUnderscore]
  rw [List.getLast?_reverse]
  exact lstrip_head_ne l.reverse

theorem rstrip_head (l : List Char) (h : l.head? ≠ some '_') :
    (rstripUnderscore l).head? ≠ some '_' := by
  obtain ⟨t, ht⟩ := rstrip_prefix l
  cases hr : rstripUnderscore l with
  | nil => simp
  | cons a s =>
    rw [hr] at ht
    intro hcontra
    simp only [List.head?_cons, Option.some.injEq] at hcontra
    apply h
    rw [← ht, hcontra]
    rfl

theorem take_head_ne (n : Nat) (l : List Char) (h : l.head? ≠ some '_') :
    (l.take n).head? ≠ some '_' := by
  cases n with
  | zero => simp
  | succ n =>
    cases l with
    | nil => simp
    | cons a t => simpa using h

theorem rstrip_length_le (l : List Char) :
    (rstripUnderscore l).length ≤ l.length := by
  simp only [rstripUnderscore, List.length_reverse]
  calc (l.reverse.dropWhile (fun c => decide (c = '_'))).length
      ≤ l.reverse.length := dropWhile_length_le _ _
    _ = l.length := by simp

theorem collapse_head_slug (c2 : Char) (t : List Char) (h : isSlugChar c2 = true) :
    collapseNonSlug (c2 :: t) = c2 :: collapseNonSlug t := by
  simp [collapseNonSlug, h]

theorem slug_char_ne_underscore (a : Char) (h : isSlugChar a = true) : ¬(a = '_') := by
  intro hc
  rw [hc] at h
  exact absurd h (by decide)

theorem collapse_mem (l : List Char) :
    ∀ c ∈ collapseNonSlug l, isSlugChar c = true ∨ c = '_' := by
  induction l with
  | nil => simp [collapseNonSlug]
  | cons a t ih =>
    intro c hc
    cases hs : isSlugChar a with
    | true =>
      rw [collapse_head_slug a t hs] at hc
      rcases List.mem_cons.mp hc with rfl | hc'
      · exact Or.inl hs
      · exact ih c hc'
    | false =>
      cases t with
      | nil =>
        have hstep : collapseNonSlug [a] = ['_'] := by simp [collapseNonSlug, hs]
        rw [hstep] at hc
        simp only [List.mem_singleton] at hc
        exact Or.inr hc
      | cons c2 t2 =>
        cases hs2 : isSlugChar c2 with
        | true =>
          have hstep : collapseNonSlug (a :: c2 :: t2) =
              '_' :: collapseNonSlug (c2 :: t2) := by
            simp [collapseNonSlug, hs, hs2]
          rw [hstep] at hc
          rcases List.mem_cons.mp hc with rfl | hc'
          · exact Or.inr rfl
          · exact ih c hc'
        | false =>
          have hstep : collapseNonSlug (a :: c2 :: t2) = collapseNonSlug (c2 :: t2) := by
            simp [collapseNonSlug, hs, hs2]
          rw [hstep] at hc
          exact ih c hc

theorem collapse_noAdj (l : List Char) :
    noAdjacentUnderscores (collapseNonSlug l) = true := by
  induction l with
  | nil => rfl
  | cons a t ih =>
    cases hs : isSlugChar a with
    | true =>
      rw [collapse_head_slug a t hs]
      have ha := slug_char_ne_underscore a hs
      cases hct : collapseNonSlug t with
      | nil => rfl
      | cons b s =>
        simp only [noAdjacentUnderscores, Bool.and_eq_true]
        exact ⟨by simp [ha], hct ▸ ih⟩
    | false =>
      cases t with
      | nil => simp [collapseNonSlug, hs, noAdjacentUnderscores]
      | cons c2 t2 =>
        cases hs2 : isSlugChar c2 with
        | false =>
          have hstep : collapseNonSlug (a :: c2 :: t2) = collapseNonSlug (c2 :: t2) := by
            simp [collapseNonSlug, hs, hs2]
          rw [hstep]
          exact ih
        | true =>
          have hstep : collapseNonSlug (a :: c2 :: t2) =
              '_' :: collapseNonSlug (c2 :: t2) := by
            simp [collapseNonSlug, hs, hs2]
          rw [hstep, collapse_head_slug c2 t2 hs2]
          have hc2 := slug_char_ne_underscore c2 hs2
          simp only [noAdjacentUnderscores, Bool.and_eq_true]
          refine ⟨by simp [hc2], ?_⟩
          rw [← collapse_head_slug c2 t2 hs2]
          exact ih

theorem collapse_all_nonslug (l : List Char) (hne : l ≠ [])
    (h : ∀ c ∈ l, isSlugChar c = false) : collapseNonSlug l = ['_'] := by
  induction l with
  | nil => exact absurd rfl hne
  | cons a t ih =>
    have ha := h a (by simp)
    cases t with
    | nil => simp [collapseNonSlug, ha]
    | cons c2 t2 =>
      have hc2 := h c2 (by simp)
      have hstep : collapseNonSlug (a :: c2 :: t2) = collapseNonSlug (c2 :: t2) := by
        simp [collapseNonSlug, ha, hc2]
      rw [hstep]
      exact ih (by simp) (fun c hc => h c (by simp [hc]))

theorem collapse_fixed (l : List Char)
    (hmem : ∀ c ∈ l, isSlugChar c = true ∨ c = '_')
    (hadj : noAdjacentUnderscores l = true)
    (hlast : l.getLast? ≠ some '_') :
    collapseNonSlug l = l := by
  induction l with
  | nil => rfl
  | cons a t ih =>
    cases hs : isSlugChar a with
    | true =>
      rw [collapse_head_slug a t hs]
      congr 1
      apply ih
      · intro c hc; exact hmem c (by simp [hc])
      · exact noAdj_cons a t hadj
      · cases t with
        | nil => simp
        | cons b s =>
          rw [List.getLast?_cons_cons] at hlast
          exact hlast
    | false =>
      have ha : a = '_' := by
        rcases hmem a (by simp) with h' | h'
        · rw [h'] at hs; cases hs
        · exact h'
      cases t with
      | nil => exact absurd (by simp [ha]) hlast
      | cons c2 t2 =>
        have hc2ne : ¬(c2 = '_') := by
          simp only [noAdjacentUnderscores, Bool.and_eq_true] at hadj
          intro hcontra
          have h1 := hadj.1
          rw [ha, hcontra] at h1
          simp at h1
        have hc2 : isSlugChar c2 = true := by
          rcases hmem c2 (by simp) with h' | h'
          · exact h'
          · exact absurd h' hc2ne
        have hstep : collapseNonSlug (a :: c2 :: t2) =
            '_' :: collapseNonSlug (c2 :: t2) := by
          simp [collapseNonSlug, hs, hc2]
        rw [hstep, ha]
        congr 1
        apply ih
        · intro c hc; exact hmem c (by simp [hc])
        · exact noAdj_cons a _ hadj
        · rw [List.getLast?_cons_cons] at hlast
          exact hlast

theorem flatMap_nfkd_id (l : List Char) (h : ∀ c ∈ l, nfkdChar c = [c]) :
    l.flatMap nfkdChar = l := by
  induction l with
  | nil => rfl
  | cons a t ih =>
    rw [List.flatMap_cons, h a (by simp), ih (fun c hc => h c (by simp [hc]))]
    rfl

theorem map_fixed {α : Type} (f : α → α) (l : List α) (h : ∀ c ∈ l, f c = c) :
    l.map f = l := by
  induction l with
  | nil => rfl
  | cons a t ih =>
    rw [List.map_cons, h a (by simp), ih (fun c hc => h c (by simp [hc]))]

theorem slug_not_tm (c : Char) (h : isSlugChar c = true ∨ c = '_') :
    nfkdChar c = [c] := by
  have hne : ¬(c = '™') := by
    intro hc
    subst hc
    rcases h with h' | h'
    · exact absurd h' (by decide)
    · exact absurd h' (by decide)
  simp [nfkdChar, hne]

theorem ascii_not_tm (c : Char) (h : c.toNat < 128) : nfkdChar c = [c] := by
  have hne : ¬(c = '™') := by
    intro hc
    subst hc
    exact absurd h (by decide)
  simp [nfkdChar, hne]

theorem slug_toNat_lt (c : Char) (h : isSlugChar c = true ∨ c = '_') :
    c.toNat < 128 := by
  rcases h with h' | h'
  · simp only [isSlugChar, Bool.or_eq_true, Bool.and_eq_true, decide_eq_true_eq] at h'
    rcases h' with ⟨-, h2⟩ | ⟨-, h2⟩
    · have hle := char_toNat_le h2
      have hz : ('z' : Char).toNat = 122 := by decide
      omega
    · have hle := char_toNat_le h2
      have h9 : ('9' : Char).toNat = 57 := by decide
      omega
  · subst h'; decide

theorem lower_fixed (c : Char) (h : isSlugChar c = true ∨ c = '_') :
    pyLowerChar c = c := by
  rcases h with h' | h'
  · simp only [isSlugChar, Bool.or_eq_true, Bool.and_eq_true, decide_eq_true_eq] at h'
    simp only [pyLowerChar]
    rw [if_neg]
    intro hc
    simp only [Bool.and_eq_true, decide_eq_true_eq] at hc
    rcases h' with ⟨h1, h2⟩ | ⟨h1, h2⟩
    · have : ('a' : Char) ≤ 'Z' := le_trans h1 hc.2
      exact absurd this (by decide)
    · have : ('A' : Char) ≤ '9' := le_trans hc.1 h2
      exact absurd this (by decide)
  · subst h'; decide

theorem lstrip_fixed (l : List Char) (h : l.head? ≠ some '_') :
    lstripUnderscore l = l := by
  cases l with
  | nil => rfl
  | cons a t =>
    have ha : ¬(a = '_') := fun hc => h (by simp [hc])
    simp [lstripUnderscore, List.dropWhile_cons, ha]

theorem rstrip_fixed (l : List Char) (h : l.getLast? ≠ some '_') :
    rstripUnderscore l = l := by
  simp only [rstripUnderscore]
  have hrev : l.reverse.head? ≠ some '_' := by
    rw [List.head?_reverse]
    exact h
  have := lstrip_fixed l.reverse hrev
  simp only [lstripUnderscore] at this
  rw [this, List.reverse_reverse]

/-- The output of `_slugify` satisfies the slug invariant: only
`[a-z0-9_]` characters, no adjacent or boundary underscores, and at most
80 characters. -/
theorem pySlugify_props (s : List Char) :
    (∀ c ∈ pySlugify s, isSlugChar c = true ∨ c = '_') ∧
    noAdjacentUnderscores (pySlugify s) = true ∧
    (pySlugify s).head? ≠ some '_' ∧
    (pySlugify s).getLast? ≠ some '_' ∧
    (pySlugify s).length ≤ 80 := by
  by_cases hs : s = []
  · subst hs
    exact ⟨by simp [pySlugify], rfl, by simp [pySlugify], by simp [pySlugify],
      by simp [pySlugify]⟩
  · simp only [pySlugify, hs, if_false]
    set L := collapseNonSlug
      (((s.flatMap nfkdChar).filter (fun c => c.toNat < 128)).map pyLowerChar) with hL
    set M := rstripUnderscore (lstripUnderscore L) with hM
    have hMmem : ∀ c ∈ M, isSlugChar c = true ∨ c = '_' :=
      fun c hc => collapse_mem _ c (mem_lstrip (mem_rstrip hc))
    have hMadj : noAdjacentUnderscores M = true :=
      noAdj_rstrip _ (noAdj_lstrip _ (collapse_noAdj _))
    have hMhead : M.head? ≠ some '_' := rstrip_head _ (lstrip_head_ne L)
    have hMlast : M.getLast? ≠ some '_' := rstrip_last_ne _
    by_cases hlen : 80 < M.length
    · simp only [hlen, if_true]
      refine ⟨fun c hc => hMmem c (List.take_subset _ _ (mem_rstrip hc)),
        noAdj_rstrip _ (noAdj_take _ _ hMadj),
        rstrip_head _ (take_head_ne _ _ hMhead),
        rstrip_last_ne _, ?_⟩
      calc (rstripUnderscore (M.take 80)).length ≤ (M.take 80).length :=
            rstrip_length_le _
        _ ≤ 80 := by simp
    · simp only [hlen, if_false]
      exact ⟨hMmem, hMadj, hMhead, hMlast, by omega⟩

/-- `_slugify` fixes any string already satisfying the slug invariant. -/
theorem pySlugify_fixed (l : List Char)
    (hmem : ∀ c ∈ l, isSlugChar c = true ∨ c = '_')
    (hadj : noAdjacentUnderscores l = true)
    (hhead : l.head? ≠ some '_')
    (hlast : l.getLast? ≠ some '_')
    (hlen : l.length ≤ 80) : pySlugify l = l := by
  by_cases hl : l = []
  · subst hl; rfl
  · simp only [pySlugify, hl, if_false]
    rw [flatMap_nfkd_id l (fun c hc => slug_not_tm c (hmem c hc))]
    rw [List.filter_eq_self.mpr
      (fun c hc => by simpa using slug_toNat_lt c (hmem c hc))]
    rw [map_fixed pyLowerChar l (fun c hc => lower_fixed c (hmem c hc))]
    rw [collapse_fixed l hmem hadj hlast]
    rw [lstrip_fixed l hhead, rstrip_fixed l hlast]
    rw [if_neg (by omega)]

/-- C9 (amended): `_slugify` is idempotent on every string; an input all
of whose characters are ASCII and non-alphanumeric slugifies to the
empty string.  The unrestricted "only non-alphanumeric characters"
version of the second part is false: `™` is non-alphanumeric but its
NFKD decomposition is `TM`, so `_slugify("™") = "tm"`. -/
theorem C9_slugify_idempotent_and_empty :
    (∀ s : String, slugifyStr (slugifyStr s) = slugifyStr s) ∧
    (∀ s : List Char, pySlugify (pySlugify s) = pySlugify s) ∧
    (∀ l : List Char, (∀ c ∈ l, c.toNat < 128 ∧ pyIsAlnum c = false) →
      pySlugify l = []) := by
  have hidem : ∀ s : List Char, pySlugify (pySlugify s) = pySlugify s := by
    intro s
    obtain ⟨hmem, hadj, hhead, hlast, hlen⟩ := pySlugify_props s
    exact pySlugify_fixed _ hmem hadj hhead hlast hlen
  refine ⟨?_, hidem, ?_⟩
  · intro s
    show String.mk (pySlugify (String.mk (pySlugify s.data)).data) =
      String.mk (pySlugify s.data)
    exact congrArg String.mk (hidem s.data)
  · intro l h
    by_cases hl : l = []
    · subst hl; rfl
    · simp only [pySlugify, hl, if_false]
      rw [flatMap_nfkd_id l (fun c hc => ascii_not_tm c (h c hc).1)]
      rw [List.filter_eq_self.mpr (fun c hc => by simpa using (h c hc).1)]
      rw [map_fixed pyLowerChar l (fun c hc => by
        have h2 := (h c hc).2
        simp only [pyLowerChar]
        rw [if_neg]
        intro hcontra
        simp only [Bool.and_eq_true, decide_eq_true_eq] at hcontra
        have halnum : pyIsAlnum c = true := by
          simp only [pyIsAlnum, Bool.or_eq_true, Bool.and_eq_true, decide_eq_true_eq]
          exact Or.inl (Or.inr ⟨hcontra.1, hcontra.2⟩)
        rw [halnum] at h2
        cases h2)]
      rw [collapse_all_nonslug l hl (fun c hc => by
        have h2 := (h c hc).2
        cases hsl : isSlugChar c with
        | false => rfl
        | true =>
          exfalso
          simp only [isSlugChar, Bool.or_eq_true, Bool.and_eq_true,
            decide_eq_true_eq] at hsl
          have halnum : pyIsAlnum c = true := by
            simp only [pyIsAlnum, Bool.or_eq_true, Bool.and_eq_true,
              decide_eq_true_eq]
            rcases hsl with h' | h'
            · exact Or.inl (Or.inl h')
            · exact Or.inr h'
          rw [halnum] at h2
          cases h2)]
      decide

/-- C9 counterexample: `™` is not alphanumeric (Unicode category So) yet
slugifies to `"tm"` — the "only non-alphanumeric characters give the
empty slug" sentence fails outside ASCII. -/
theorem C9_counterexample :
    pyIsAlnum '™' = false ∧ pySlugify ['™'] = ['t', 'm'] ∧ pySlugify ['™'] ≠ [] :=
  ⟨by decide, by decide, by decide⟩

/-- Witness for C9: idempotence evaluated at a concrete mixed string and
the empty-slug property at concrete ASCII punctuation. -/
theorem C9_witness :
    slugifyStr (slugifyStr "  Example Title!! ") = slugifyStr "  Example Title!! " ∧
    ((∀ c ∈ ['!', '-', '-', ' '], c.toNat < 128 ∧ pyIsAlnum c = false) ∧
      pySlugify ['!', '-', '-', ' '] = []) :=
  ⟨C9_slugify_idempotent_and_empty.1 "  Example Title!! ",
   ⟨by decide, C9_slugify_idempotent_and_empty.2.2 ['!', '-', '-', ' '] (by decide)⟩⟩

end ArxivSDK
